import Mathlib

/-!
# OAuth orchestration: a shallow embedding of `config/oauth.js` and `services/oauthService.js`

The JavaScript values that travel through the service (JSON bodies of HTTP
responses, profile records, error objects) are embedded as the inductive type
`JSVal`.  Asynchronous methods become functions of an HTTP oracle that return
the list of effects they performed together with their outcome
(`Except JSError _`, where `error` is a thrown exception / rejected promise).

Conventions of the embedding:

* a number is given by an integer literal (`Int`) and is the number value of
  that literal, the nearest double; numbers with a fractional part are not
  represented;
* strings are Lean strings (sequences of Unicode scalar values);
* an object is an association list, the first binding of a key being the one
  in force.
-/

set_option autoImplicit false

namespace OAuth

/-! ## JavaScript values -/

/-- JSON-shaped JavaScript values. -/
inductive JSVal where
  | undefined
  | null
  | bool (b : Bool)
  | num (n : Int)
  | str (s : String)
  | arr (elems : List JSVal)
  | obj (fields : List (String × JSVal))

/-- A thrown JavaScript error.  `response` is `error.response.data` when the
error object carries a `response` (an HTTP error status reported by axios),
and `none` when it does not (network failure, `TypeError`, `new Error(..)`). -/
structure JSError where
  name : String
  message : String
  response : Option JSVal

/-! ## Numbers -/

/-- The number of binary digits of `m`, counted with at most `fuel` steps. -/
def bitLength : Nat → Nat → Nat
  | 0, _ => 0
  | fuel + 1, m => if m = 0 then 0 else bitLength fuel (m / 2) + 1

/-- The value of the double nearest to a natural number, ties going to the
even significand (the number value of an integer literal). -/
def roundToDouble (m : Nat) : Nat :=
  let bits := bitLength m m
  if bits ≤ 53 then m
  else
    let e := bits - 53
    let q := m / 2 ^ e
    let r := m % 2 ^ e
    let half := 2 ^ (e - 1)
    (if r > half ∨ (r = half ∧ q % 2 = 1) then q + 1 else q) * 2 ^ e

/-- The number of decimal digits of a natural number. -/
def digitCount (x : Nat) : Nat :=
  (Nat.toDigits 10 x).length

/-- The distance between two natural numbers. -/
def distance (a b : Nat) : Nat :=
  if a ≤ b then b - a else a - b

/-- The candidates with `k` significant digits for the double `x` of `D`
digits are the multiples of `10 ^ (D - k)` just below and just above `x`; the
result is the one that rounds to `x`, the closest of the two when both do
(the even one on a tie), as a pair of the significant digits and the power of
ten. -/
def pickAt (x D k : Nat) : Option (Nat × Nat) :=
  let j := D - k
  let lo := x / 10 ^ j
  let hi := lo + 1
  let up : Nat × Nat := if hi < 10 ^ k then (hi, j) else (1, D)
  let okLo := roundToDouble (lo * 10 ^ j) == x
  let okUp := roundToDouble (up.1 * 10 ^ up.2) == x
  if okLo && okUp then
    let dLo := distance (lo * 10 ^ j) x
    let dUp := distance (up.1 * 10 ^ up.2) x
    if dLo < dUp then some (lo, j)
    else if dUp < dLo then some up
    else if lo % 2 = 0 then some (lo, j) else some up
  else if okLo then some (lo, j)
  else if okUp then some up
  else none

/-- The shortest digit string that rounds to the double `x`, searched from
`k` significant digits upwards. -/
def shortestFrom (x D : Nat) : Nat → Nat → Nat × Nat
  | 0, _ => (x, 0)
  | fuel + 1, k =>
    match pickAt x D k with
    | some found => found
    | none => shortestFrom x D fuel (k + 1)

/-- `Number.prototype.toString()` of an integral double of at least 2^53:
the shortest digits that round to it, written out in full up to 21 digits and
in exponent form beyond. -/
def largeToString (x : Nat) : String :=
  if x ≥ 2 ^ 1024 then "Infinity"
  else
    let found := shortestFrom x (digitCount x) (digitCount x) 1
    let digits := Nat.toDigits 10 found.1
    let n := digits.length + found.2
    if n ≤ 21 then String.mk (digits ++ List.replicate found.2 '0')
    else
      match digits with
      | [] => ""
      | [d] => String.mk [d] ++ "e+" ++ (n - 1).repr
      | d :: rest => String.mk (d :: '.' :: rest) ++ "e+" ++ (n - 1).repr

/-- `Number.prototype.toString()` of the number value of an integer literal:
the decimal digits of a safe integer (magnitude below 2^53), and the
shortest round-trip digits of the nearest double otherwise. -/
def numberToString (n : Int) : String :=
  if n.natAbs < 9007199254740992 then n.repr
  else (if n < 0 then "-" else "") ++ largeToString (roundToDouble n.natAbs)

/-- The value of `new Error(message)`. -/
def mkError (message : String) : JSError :=
  { name := "Error", message := message, response := none }

/-- A `TypeError` raised by the engine. -/
def typeError (message : String) : JSError :=
  { name := "TypeError", message := message, response := none }

namespace JSVal

/-- JavaScript truthiness (`ToBoolean`). -/
def truthy : JSVal → Bool
  | undefined => false
  | null => false
  | bool b => b
  | num n => n != 0
  | str s => s != ""
  | arr _ => true
  | obj _ => true

/-- The operator `a || b`. -/
def or (a b : JSVal) : JSVal :=
  if a.truthy then a else b

/-- Is the value `undefined` or `null`? -/
def isNullish : JSVal → Bool
  | undefined => true
  | null => true
  | _ => false

/-- Is the value a string? (`typeof v === 'string'`). -/
def isString : JSVal → Bool
  | str _ => true
  | _ => false

/-- Lookup of a key in the association list of an object. -/
def lookup (k : String) : List (String × JSVal) → JSVal
  | [] => undefined
  | (k', v) :: rest => if k' = k then v else lookup k rest

/-- Does the association list bind the key? -/
def hasKey (k : String) : List (String × JSVal) → Bool
  | [] => false
  | (k', _) :: rest => if k' = k then true else hasKey k rest

/-- Replace the binding of a key, or add one at the end. -/
def update (k : String) (x : JSVal) : List (String × JSVal) → List (String × JSVal)
  | [] => [(k, x)]
  | (k', v) :: rest => if k' = k then (k', x) :: rest else (k', v) :: update k x rest

/-- Property read `v.k`, for the property names the service reads (none of
which is defined on the prototypes of primitives or arrays): it throws on
`undefined` and `null`, reads the binding of an object, and is `undefined`
on every other value. -/
def getProp (v : JSVal) (k : String) : Except JSError JSVal :=
  match v with
  | undefined =>
    .error (typeError ("Cannot read properties of undefined (reading '" ++ k ++ "')"))
  | null =>
    .error (typeError ("Cannot read properties of null (reading '" ++ k ++ "')"))
  | obj fields => .ok (lookup k fields)
  | _ => .ok undefined

/-- Optional property read `v?.k`. -/
def optProp (v : JSVal) (k : String) : JSVal :=
  match v with
  | obj fields => lookup k fields
  | _ => undefined

mutual
/-- The abstract operation `ToString`, as applied by template literals.
An object with an own `toString` entry (a JSON value, hence not callable)
cannot be converted to a primitive. -/
def toStr : JSVal → Except JSError String
  | undefined => .ok "undefined"
  | null => .ok "null"
  | bool true => .ok "true"
  | bool false => .ok "false"
  | num n => .ok (numberToString n)
  | str s => .ok s
  | arr es => joinElems es
  | obj fields =>
    if hasKey "toString" fields then
      .error (typeError "Cannot convert object to primitive value")
    else .ok "[object Object]"
termination_by structural v => v
/-- The method `Array.prototype.join` with the default separator. -/
def joinElems : List JSVal → Except JSError String
  | [] => .ok ""
  | e :: es =>
    match (match e with
      | undefined => Except.ok ""
      | null => Except.ok ""
      | v => toStr v) with
    | .error err => .error err
    | .ok s =>
      match joinElems es with
      | .error err => .error err
      | .ok rest => .ok (s ++ (match es with | [] => "" | _ => ",") ++ rest)
termination_by structural l => l
end

/-- The method call `v.toString()`, `what` being the source text of the
callee (used in the engine's message). -/
def callToString (v : JSVal) (what : String) : Except JSError String :=
  match v with
  | undefined =>
    .error (typeError "Cannot read properties of undefined (reading 'toString')")
  | null =>
    .error (typeError "Cannot read properties of null (reading 'toString')")
  | obj fields =>
    if hasKey "toString" fields then
      .error (typeError (what ++ ".toString is not a function"))
    else .ok "[object Object]"
  | v => toStr v

/-- Strict-mode assignment `v.k = x` (class bodies are strict code); the
result is the updated value.  An array receives the property as an expando,
which the embedding does not record: the service never reads it back. -/
def setProp (v : JSVal) (k : String) (x : JSVal) : Except JSError JSVal :=
  match v with
  | undefined =>
    .error (typeError ("Cannot set properties of undefined (setting '" ++ k ++ "')"))
  | null =>
    .error (typeError ("Cannot set properties of null (setting '" ++ k ++ "')"))
  | bool true =>
    .error (typeError ("Cannot create property '" ++ k ++ "' on boolean 'true'"))
  | bool false =>
    .error (typeError ("Cannot create property '" ++ k ++ "' on boolean 'false'"))
  | num n =>
    .error (typeError ("Cannot create property '" ++ k ++ "' on number '" ++ numberToString n ++ "'"))
  | str s =>
    .error (typeError ("Cannot create property '" ++ k ++ "' on string '" ++ s ++ "'"))
  | arr es => .ok (arr es)
  | obj fields => .ok (obj (update k x fields))

end JSVal

/-! ## Strings -/

/-- Split a sequence of characters at every occurrence of `c`
(`String.prototype.split` with a one-character separator). -/
def splitOnChar (c : Char) : List Char → List (List Char)
  | [] => [[]]
  | x :: xs =>
    if x = c then [] :: splitOnChar c xs
    else
      match splitOnChar c xs with
      | [] => [[x]]
      | p :: ps => (x :: p) :: ps

/-- `s.split(' ')`. -/
def splitSpaces (s : String) : List String :=
  (splitOnChar ' ' s.data).map String.mk

/-- `parts.join(' ')`. -/
def joinSpaces : List String → String
  | [] => ""
  | [p] => p
  | p :: ps => p ++ " " ++ joinSpaces ps

/-! ## `config/oauth.js`: the provider registry -/

/-- The environment variables read by the registry (`process.env`); an unset
variable is `undefined`. -/
structure Env where
  GOOGLE_CLIENT_ID : Option String
  GOOGLE_CLIENT_SECRET : Option String
  GOOGLE_REDIRECT_URI : Option String
  GITHUB_CLIENT_ID : Option String
  GITHUB_CLIENT_SECRET : Option String
  GITHUB_REDIRECT_URI : Option String

/-- One entry of `oauthConfig`.  `userEmailURL` is absent from the entries
that do not declare it. -/
structure ProviderConfig where
  clientId : Option String
  clientSecret : Option String
  callbackURL : Option String
  authorizationURL : String
  tokenURL : String
  userInfoURL : String
  userEmailURL : Option String
  scope : List String
  grantType : String

/-- The entry `oauthConfig.google`. -/
def googleConfig (env : Env) : ProviderConfig :=
  { clientId := env.GOOGLE_CLIENT_ID
    clientSecret := env.GOOGLE_CLIENT_SECRET
    callbackURL := env.GOOGLE_REDIRECT_URI
    authorizationURL := "https://accounts.google.com/o/oauth2/v2/auth"
    tokenURL := "https://oauth2.googleapis.com/token"
    userInfoURL := "https://www.googleapis.com/oauth2/v2/userinfo"
    userEmailURL := none
    scope := ["profile", "email"]
    grantType := "authorization_code" }

/-- The entry `oauthConfig.github`. -/
def githubConfig (env : Env) : ProviderConfig :=
  { clientId := env.GITHUB_CLIENT_ID
    clientSecret := env.GITHUB_CLIENT_SECRET
    callbackURL := env.GITHUB_REDIRECT_URI
    authorizationURL := "https://github.com/login/oauth/authorize"
    tokenURL := "https://github.com/login/oauth/access_token"
    userInfoURL := "https://api.github.com/user"
    userEmailURL := some "https://api.github.com/user/emails"
    scope := ["user:email", "read:user"]
    grantType := "authorization_code" }

/-- The lookup `oauthConfig[provider]`: `none` is `undefined`.  (Identifiers
that name members inherited from `Object.prototype` are not provider
identifiers and are outside the embedding.) -/
def oauthConfig (env : Env) (provider : String) : Option ProviderConfig :=
  if provider = "google" then some (googleConfig env)
  else if provider = "github" then some (githubConfig env)
  else none

/-- The string a possibly undefined string converts to (`ToString`). -/
def optToString : Option String → String
  | some s => s
  | none => "undefined"

/-! ## `services/oauthService.js`: profile normalisation -/

/-- The record built by `normalizeUserProfile`. -/
structure NormalizedProfile where
  providerId : JSVal
  email : JSVal
  firstName : JSVal
  lastName : JSVal
  displayName : JSVal
  profilePicture : JSVal
  raw : JSVal
  emailVerified : JSVal

/-- The expression `name?.split(' ')`: `none` when the chain short-circuits
on `undefined` or `null`; a value that is not a string has no `split`
method. -/
def optSplit (name : JSVal) (what : String) : Except JSError (Option (List String)) :=
  match name with
  | .undefined => .ok none
  | .null => .ok none
  | .str s => .ok (some (splitSpaces s))
  | _ => .error (typeError (what ++ "?.split is not a function"))

/-- The expression `rawProfile.name?.split(' ')[0]`. -/
def firstPart : Option (List String) → JSVal
  | none => .undefined
  | some [] => .undefined
  | some (p :: _) => .str p

/-- The expression `rawProfile.name?.split(' ').slice(1).join(' ')`. -/
def restParts : Option (List String) → JSVal
  | none => .undefined
  | some ps => .str (joinSpaces (ps.drop 1))

/-- The method `normalizeUserProfile(provider, rawProfile)`. -/
def normalizeUserProfile (provider : String) (rawProfile : JSVal) :
    Except JSError NormalizedProfile :=
  let normalized : NormalizedProfile :=
    { providerId := .str ""
      email := .str ""
      firstName := .str ""
      lastName := .str ""
      displayName := .str ""
      profilePicture := .str ""
      raw := rawProfile
      emailVerified := .undefined }
  if provider = "google" then do
    let normalized := { normalized with providerId := ← rawProfile.getProp "id" }
    let normalized := { normalized with email := ← rawProfile.getProp "email" }
    let normalized :=
      { normalized with firstName := (← rawProfile.getProp "given_name").or (.str "") }
    let normalized :=
      { normalized with lastName := (← rawProfile.getProp "family_name").or (.str "") }
    let normalized :=
      { normalized with displayName := (← rawProfile.getProp "name").or (.str "") }
    let normalized :=
      { normalized with profilePicture := (← rawProfile.getProp "picture").or (.str "") }
    let normalized :=
      { normalized with
        emailVerified := (← rawProfile.getProp "verified_email").or (.bool false) }
    return normalized
  else if provider = "github" then do
    let normalized :=
      { normalized with
        providerId := .str (← (← rawProfile.getProp "id").callToString "rawProfile.id") }
    let normalized :=
      { normalized with email := (← rawProfile.getProp "email").or (.str "") }
    let normalized :=
      { normalized with
        firstName :=
          (firstPart (← optSplit (← rawProfile.getProp "name") "rawProfile.name")).or
            (← rawProfile.getProp "login") }
    let normalized :=
      { normalized with
        lastName :=
          (restParts (← optSplit (← rawProfile.getProp "name") "rawProfile.name")).or
            (.str "") }
    let normalized :=
      { normalized with
        displayName := (← rawProfile.getProp "name").or (← rawProfile.getProp "login") }
    let normalized :=
      { normalized with profilePicture := (← rawProfile.getProp "avatar_url").or (.str "") }
    let normalized := { normalized with emailVerified := .bool true }
    return normalized
  else
    throw (mkError ("Unsupported provider: " ++ provider))

/-! ## `services/oauthService.js`: effects -/

/-- A request handed to axios: `body` is the URL-encoded form of a POST,
`params` the `params` option of the call. -/
structure HttpRequest where
  method : String
  url : String
  body : List (String × String)
  params : List (String × String)
  headers : List (String × String)

/-- The HTTP layer seen from the service: a request either resolves with
`response.data` or rejects with an error. -/
abbrev Http := HttpRequest → Except JSError JSVal

/-- Modelled from the spec: the logger of `utils/logger` is not among the
sources; a call to it ("log and continue") records an entry and returns
normally.  The other effect of the service is an HTTP request. -/
inductive Effect where
  | http (req : HttpRequest)
  | log (level : String) (message : String) (detail : JSVal)

/-- The expression `error.response?.data`. -/
def JSError.responseData (error : JSError) : JSVal :=
  match error.response with
  | none => .undefined
  | some data => data

/-- The expression `error.response?.data?.error_description`. -/
def JSError.errorDescription (error : JSError) : JSVal :=
  error.responseData.optProp "error_description"

/-- The operator `a || b` on possibly undefined strings. -/
def optOr (a b : Option String) : Option String :=
  match a with
  | some s => if s = "" then b else some s
  | none => b

/-! ## `services/oauthService.js`: code-for-token exchange -/

/-- The object returned by `exchangeCodeForToken`. -/
structure TokenSet where
  accessToken : JSVal
  refreshToken : JSVal
  expiresIn : JSVal
  tokenType : JSVal

/-- The POST request `exchangeCodeForToken` sends to the token endpoint. -/
def tokenRequest (config : ProviderConfig) (provider code : String)
    (codeVerifier redirectUri : Option String) : HttpRequest :=
  let params :=
    [ ("client_id", optToString config.clientId),
      ("client_secret", optToString config.clientSecret),
      ("code", code),
      ("redirect_uri", optToString (optOr redirectUri config.callbackURL)) ]
  let params :=
    if provider = "google" then
      params ++ [("grant_type", config.grantType), ("code_verifier", optToString codeVerifier)]
    else params
  let headers := [("Content-Type", "application/x-www-form-urlencoded")]
  let headers :=
    if provider = "github" then headers ++ [("Accept", "application/json")] else headers
  { method := "POST", url := config.tokenURL, body := params, params := [], headers := headers }

/-- The body of the `try` block of `exchangeCodeForToken`. -/
def exchangeAttempt (env : Env) (http : Http) (provider code : String)
    (codeVerifier redirectUri : Option String) : List Effect × Except JSError TokenSet :=
  match oauthConfig env provider with
  | none => ([], .error (typeError "Cannot read properties of undefined (reading 'clientId')"))
  | some config =>
    let req := tokenRequest config provider code codeVerifier redirectUri
    match http req with
    | .error error => ([.http req], .error error)
    | .ok data =>
      ([.http req], do
        let accessToken ← data.getProp "access_token"
        let refreshToken ← data.getProp "refresh_token"
        let expiresIn ← data.getProp "expires_in"
        let tokenType ← data.getProp "token_type"
        return { accessToken := accessToken, refreshToken := refreshToken,
                 expiresIn := expiresIn, tokenType := tokenType })

/-- The method `exchangeCodeForToken(provider, code, codeVerifier, redirectUri)`. -/
def exchangeCodeForToken (env : Env) (http : Http) (provider code : String)
    (codeVerifier redirectUri : Option String) : List Effect × Except JSError TokenSet :=
  match exchangeAttempt env http provider code codeVerifier redirectUri with
  | (effects, .ok tokens) => (effects, .ok tokens)
  | (effects, .error error) =>
    let effects :=
      effects ++
        [.log "error" (provider ++ " token exchange error:")
          (error.responseData.or (.str error.message))]
    match (error.errorDescription.or (.str error.message)).toStr with
    | .error thrown => (effects, .error thrown)
    | .ok text => (effects, .error (mkError ("Failed to exchange code for token: " ++ text)))

/-! ## `services/oauthService.js`: profile retrieval -/

/-- The headers `getUserProfile` sends. -/
def profileHeaders (provider accessToken : String) : List (String × String) :=
  let headers := [("Authorization", "Bearer " ++ accessToken)]
  if provider = "github" then
    headers ++ [("User-Agent", "OAuth2-App"), ("Accept", "application/json")]
  else headers

/-- The GET request to the userinfo endpoint. -/
def userInfoRequest (config : ProviderConfig) (provider accessToken : String) : HttpRequest :=
  { method := "GET", url := config.userInfoURL, body := [], params := [],
    headers := profileHeaders provider accessToken }

/-- The GET request to the email-list endpoint (issued for `github` only,
whose entry declares `userEmailURL`). -/
def userEmailRequest (config : ProviderConfig) (provider accessToken : String) : HttpRequest :=
  { method := "GET", url := optToString config.userEmailURL, body := [], params := [],
    headers := profileHeaders provider accessToken }

/-- The call `list.find(email => email.primary && email.verified)` on the
elements of an array. -/
def findPrimaryVerified : List JSVal → Except JSError JSVal
  | [] => .ok .undefined
  | entry :: rest =>
    match entry.getProp "primary" with
    | .error thrown => .error thrown
    | .ok primary =>
      match (if primary.truthy then entry.getProp "verified" else .ok primary) with
      | .error thrown => .error thrown
      | .ok test => if test.truthy then .ok entry else findPrimaryVerified rest

/-- The call `emailResponse.data.find(..)`: only an array has the method. -/
def findInResponse (data : JSVal) : Except JSError JSVal :=
  match data with
  | .undefined => .error (typeError "Cannot read properties of undefined (reading 'find')")
  | .null => .error (typeError "Cannot read properties of null (reading 'find')")
  | .arr entries => findPrimaryVerified entries
  | _ => .error (typeError "emailResponse.data.find is not a function")

/-- The expression `emailResponse.data[0]?.email`. -/
def firstEntryEmail (data : JSVal) : JSVal :=
  match data with
  | .arr (entry :: _) => entry.optProp "email"
  | _ => .undefined

/-- The email chosen from the email-list response:
`primaryEmail ? primaryEmail.email : emailResponse.data[0]?.email`. -/
def chooseEmail (emailData : JSVal) : Except JSError JSVal :=
  match findInResponse emailData with
  | .error thrown => .error thrown
  | .ok primaryEmail =>
    if primaryEmail.truthy then primaryEmail.getProp "email"
    else .ok (firstEntryEmail emailData)

/-- The body of the `try` block of `getUserProfile`. -/
def profileAttempt (env : Env) (http : Http) (provider accessToken : String) :
    List Effect × Except JSError NormalizedProfile :=
  match oauthConfig env provider with
  | none => ([], .error (typeError "Cannot read properties of undefined (reading 'userInfoURL')"))
  | some config =>
    let req := userInfoRequest config provider accessToken
    match http req with
    | .error error => ([.http req], .error error)
    | .ok data =>
      if provider = "github" then
        match data.getProp "email" with
        | .error thrown => ([.http req], .error thrown)
        | .ok email =>
          if !email.truthy then
            let emailReq := userEmailRequest config provider accessToken
            match http emailReq with
            | .error error => ([.http req, .http emailReq], .error error)
            | .ok emailData =>
              ([.http req, .http emailReq], do
                let chosen ← chooseEmail emailData
                let data ← data.setProp "email" chosen
                normalizeUserProfile provider data)
          else ([.http req], normalizeUserProfile provider data)
      else ([.http req], normalizeUserProfile provider data)

/-- The outcome of `getUserProfile` for an outcome of its `try` block: a
thrown error is replaced by the error of the `catch` block. -/
def rethrowProfileError :
    Except JSError NormalizedProfile → Except JSError NormalizedProfile
  | .ok profile => .ok profile
  | .error error => .error (mkError ("Failed to fetch user profile: " ++ error.message))

/-- The method `getUserProfile(provider, accessToken)`. -/
def getUserProfile (env : Env) (http : Http) (provider accessToken : String) :
    List Effect × Except JSError NormalizedProfile :=
  match profileAttempt env http provider accessToken with
  | (effects, .ok profile) => (effects, .ok profile)
  | (effects, .error error) =>
    (effects ++
        [.log "error" (provider ++ " user profile error:")
          (error.responseData.or (.str error.message))],
      .error (mkError ("Failed to fetch user profile: " ++ error.message)))

/-! ## `services/oauthService.js`: revocation -/

/-- The body of the `try` block of `revokeToken`. -/
def revokeAttempt (env : Env) (http : Http) (provider token : String) :
    List Effect × Except JSError Unit :=
  let done : Effect := .log "info" ("Successfully revoked " ++ provider ++ " token") .undefined
  if provider = "google" then
    let req : HttpRequest :=
      { method := "POST", url := "https://oauth2.googleapis.com/revoke?token=" ++ token,
        body := [], params := [], headers := [] }
    match http req with
    | .error error => ([.http req], .error error)
    | .ok _ => ([.http req, done], .ok ())
  else if provider = "facebook" then
    let _config := oauthConfig env provider
    let req : HttpRequest :=
      { method := "DELETE", url := "https://graph.facebook.com/me/permissions",
        body := [], params := [("access_token", token)], headers := [] }
    match http req with
    | .error error => ([.http req], .error error)
    | .ok _ => ([.http req, done], .ok ())
  else ([done], .ok ())

/-- The method `revokeToken(provider, token)`. -/
def revokeToken (env : Env) (http : Http) (provider token : String) :
    List Effect × Except JSError Unit :=
  match revokeAttempt env http provider token with
  | (effects, .ok _) => (effects, .ok ())
  | (effects, .error error) =>
    (effects ++ [.log "error" (provider ++ " token revocation error:") (.str error.message)],
      .ok ())

/-! ## Node primitives used by `config/oauth.js`: bytes, base64url, SHA-256 -/

/-- The UTF-8 encoding of a character, as a list of bytes. -/
def utf8Char (c : Char) : List Nat :=
  let n := c.toNat
  if n < 0x80 then [n]
  else if n < 0x800 then [0xC0 + n / 64, 0x80 + n % 64]
  else if n < 0x10000 then [0xE0 + n / 4096, 0x80 + n / 64 % 64, 0x80 + n % 64]
  else [0xF0 + n / 262144, 0x80 + n / 4096 % 64, 0x80 + n / 64 % 64, 0x80 + n % 64]

/-- The UTF-8 encoding of a string. -/
def utf8Bytes (s : String) : List Nat :=
  s.data.flatMap utf8Char

/-- The alphabet of the URL-safe base64 encoding (RFC 4648, section 5). -/
def base64urlAlphabet : List Char :=
  "ABCDEFGHIJKLMNOPQRSTUVWXYZabcdefghijklmnopqrstuvwxyz0123456789-_".data

/-- The character that encodes a 6-bit group. -/
def base64urlChar (sextet : Nat) : Char :=
  base64urlAlphabet.getD sextet 'A'

/-- The characters of `Buffer.toString('base64url')`: three bytes become four
characters, a final group of one or two bytes becomes two or three
characters, and no padding is written. -/
def base64urlChars : List Nat → List Char
  | a :: b :: c :: rest =>
    base64urlChar (a / 4) :: base64urlChar (a % 4 * 16 + b / 16) ::
      base64urlChar (b % 16 * 4 + c / 64) :: base64urlChar (c % 64) :: base64urlChars rest
  | [a, b] =>
    [base64urlChar (a / 4), base64urlChar (a % 4 * 16 + b / 16), base64urlChar (b % 16 * 4)]
  | [a] => [base64urlChar (a / 4), base64urlChar (a % 4 * 16)]
  | [] => []

/-- The encoding `Buffer.toString('base64url')`. -/
def base64url (bytes : List Nat) : String :=
  String.mk (base64urlChars bytes)

namespace Sha256

/-- Reduction to a 32-bit word. -/
def word (x : Nat) : Nat := x % 4294967296

/-- Rotation of a 32-bit word to the right. -/
def rotr (n x : Nat) : Nat := word ((x >>> n) ||| (x <<< (32 - n)))

/-- The function Ch of FIPS 180-4. -/
def ch (x y z : Nat) : Nat := (x &&& y) ^^^ ((x ^^^ 0xffffffff) &&& z)

/-- The function Maj of FIPS 180-4. -/
def maj (x y z : Nat) : Nat := (x &&& y) ^^^ (x &&& z) ^^^ (y &&& z)

/-- The function Σ0. -/
def bigSigma0 (x : Nat) : Nat := rotr 2 x ^^^ rotr 13 x ^^^ rotr 22 x

/-- The function Σ1. -/
def bigSigma1 (x : Nat) : Nat := rotr 6 x ^^^ rotr 11 x ^^^ rotr 25 x

/-- The function σ0. -/
def smallSigma0 (x : Nat) : Nat := rotr 7 x ^^^ rotr 18 x ^^^ (x >>> 3)

/-- The function σ1. -/
def smallSigma1 (x : Nat) : Nat := rotr 17 x ^^^ rotr 19 x ^^^ (x >>> 10)

/-- The round constants. -/
def roundConstants : List Nat :=
  [ 0x428a2f98, 0x71374491, 0xb5c0fbcf, 0xe9b5dba5, 0x3956c25b, 0x59f111f1,
    0x923f82a4, 0xab1c5ed5, 0xd807aa98, 0x12835b01, 0x243185be, 0x550c7dc3,
    0x72be5d74, 0x80deb1fe, 0x9bdc06a7, 0xc19bf174, 0xe49b69c1, 0xefbe4786,
    0x0fc19dc6, 0x240ca1cc, 0x2de92c6f, 0x4a7484aa, 0x5cb0a9dc, 0x76f988da,
    0x983e5152, 0xa831c66d, 0xb00327c8, 0xbf597fc7, 0xc6e00bf3, 0xd5a79147,
    0x06ca6351, 0x14292967, 0x27b70a85, 0x2e1b2138, 0x4d2c6dfc, 0x53380d13,
    0x650a7354, 0x766a0abb, 0x81c2c92e, 0x92722c85, 0xa2bfe8a1, 0xa81a664b,
    0xc24b8b70, 0xc76c51a3, 0xd192e819, 0xd6990624, 0xf40e3585, 0x106aa070,
    0x19a4c116, 0x1e376c08, 0x2748774c, 0x34b0bcb5, 0x391c0cb3, 0x4ed8aa4a,
    0x5b9cca4f, 0x682e6ff3, 0x748f82ee, 0x78a5636f, 0x84c87814, 0x8cc70208,
    0x90befffa, 0xa4506ceb, 0xbef9a3f7, 0xc67178f2 ]

/-- The eight working variables, also the intermediate hash value. -/
structure State where
  a : Nat
  b : Nat
  c : Nat
  d : Nat
  e : Nat
  f : Nat
  g : Nat
  h : Nat

/-- The initial hash value. -/
def initial : State :=
  { a := 0x6a09e667, b := 0xbb67ae85, c := 0x3c6ef372, d := 0xa54ff53a,
    e := 0x510e527f, f := 0x9b05688c, g := 0x1f83d9ab, h := 0x5be0cd19 }

/-- The message padding: a byte `0x80`, zero bytes up to 56 modulo 64, and
the bit length on eight bytes, most significant first. -/
def pad (message : List Nat) : List Nat :=
  let bits := 8 * message.length
  message ++ [0x80] ++ List.replicate ((119 - message.length % 64) % 64) 0 ++
    [bits / 2 ^ 56 % 256, bits / 2 ^ 48 % 256, bits / 2 ^ 40 % 256, bits / 2 ^ 32 % 256,
     bits / 2 ^ 24 % 256, bits / 2 ^ 16 % 256, bits / 2 ^ 8 % 256, bits % 256]

/-- The big-endian words of a sequence of bytes. -/
def toWords : List Nat → List Nat
  | b0 :: b1 :: b2 :: b3 :: rest =>
    (b0 * 16777216 + b1 * 65536 + b2 * 256 + b3) :: toWords rest
  | _ => []

/-- Extension of the message schedule by `n` words. -/
def extend : Nat → List Nat → List Nat
  | 0, w => w
  | n + 1, w =>
    let t := w.length
    extend n
      (w ++ [word (smallSigma1 (w.getD (t - 2) 0) + w.getD (t - 7) 0 +
                 smallSigma0 (w.getD (t - 15) 0) + w.getD (t - 16) 0)])

/-- One round of the compression function. -/
def round (s : State) (kw : Nat × Nat) : State :=
  let t1 := s.h + bigSigma1 s.e + ch s.e s.f s.g + kw.1 + kw.2
  let t2 := bigSigma0 s.a + maj s.a s.b s.c
  { a := word (t1 + t2), b := s.a, c := s.b, d := s.c,
    e := word (s.d + t1), f := s.e, g := s.f, h := s.g }

/-- The compression of one block of sixteen words into the hash value. -/
def compress (hash : State) (block : List Nat) : State :=
  let s := (roundConstants.zip (extend 48 block)).foldl round hash
  { a := word (hash.a + s.a), b := word (hash.b + s.b), c := word (hash.c + s.c),
    d := word (hash.d + s.d), e := word (hash.e + s.e), f := word (hash.f + s.f),
    g := word (hash.g + s.g), h := word (hash.h + s.h) }

/-- The hash value after `n` blocks of sixteen words. -/
def absorb : Nat → State → List Nat → State
  | 0, hash, _ => hash
  | n + 1, hash, words => absorb n (compress hash (words.take 16)) (words.drop 16)

/-- The four bytes of a word, most significant first. -/
def wordBytes (x : Nat) : List Nat :=
  [x / 16777216 % 256, x / 65536 % 256, x / 256 % 256, x % 256]

/-- The digest bytes of a hash value. -/
def digest (s : State) : List Nat :=
  wordBytes s.a ++ wordBytes s.b ++ wordBytes s.c ++ wordBytes s.d ++
    wordBytes s.e ++ wordBytes s.f ++ wordBytes s.g ++ wordBytes s.h

/-- SHA-256 of a sequence of bytes (FIPS 180-4). -/
def hash (message : List Nat) : List Nat :=
  let words := toWords (pad message)
  digest (absorb (words.length / 16) initial words)

end Sha256

/-! ## `config/oauth.js`: PKCE -/

/-- The object returned by `generatePKCE`. -/
structure PKCE where
  codeVerifier : String
  codeChallenge : String
  codeChallengeMethod : String

/-- The function `generatePKCE()`; `randomBytes` is `crypto.randomBytes`, the
entropy source. -/
def generatePKCE (randomBytes : Nat → List Nat) : PKCE :=
  let codeVerifier := base64url (randomBytes 32)
  let codeChallenge := base64url (Sha256.hash (utf8Bytes codeVerifier))
  { codeVerifier := codeVerifier
    codeChallenge := codeChallenge
    codeChallengeMethod := "S256" }

/-! ## Node primitives used by `config/oauth.js`: `JSON.stringify`, `URLSearchParams` -/

/-- A hexadecimal digit, in lower case. -/
def hexLower : Nat → Char
  | 0 => '0' | 1 => '1' | 2 => '2' | 3 => '3' | 4 => '4' | 5 => '5' | 6 => '6' | 7 => '7'
  | 8 => '8' | 9 => '9' | 10 => 'a' | 11 => 'b' | 12 => 'c' | 13 => 'd' | 14 => 'e'
  | _ => 'f'

/-- A hexadecimal digit, in upper case. -/
def hexUpper : Nat → Char
  | 0 => '0' | 1 => '1' | 2 => '2' | 3 => '3' | 4 => '4' | 5 => '5' | 6 => '6' | 7 => '7'
  | 8 => '8' | 9 => '9' | 10 => 'A' | 11 => 'B' | 12 => 'C' | 13 => 'D' | 14 => 'E'
  | _ => 'F'

/-- The escape of one character inside a JSON string (`QuoteJSONString`). -/
def jsonEscapeChar (c : Char) : List Char :=
  if c = '"' then ['\\', '"']
  else if c = '\\' then ['\\', '\\']
  else if c = '\x08' then ['\\', 'b']
  else if c = '\x0c' then ['\\', 'f']
  else if c = '\n' then ['\\', 'n']
  else if c = '\r' then ['\\', 'r']
  else if c = '\t' then ['\\', 't']
  else if c.toNat < 0x20 then
    ['\\', 'u', '0', '0', hexLower (c.toNat / 16), hexLower (c.toNat % 16)]
  else [c]

/-- The text `JSON.stringify(s)` of a string. -/
def jsonString (s : String) : String :=
  String.mk ('"' :: s.data.flatMap jsonEscapeChar ++ ['"'])

/-- The text `JSON.stringify({ state, redirectPath })`. -/
def stringifyState (state redirectPath : String) : String :=
  "\x7b\"state\":" ++ jsonString state ++ ",\"redirectPath\":" ++ jsonString redirectPath ++
    "\x7d"

/-- Characters the `application/x-www-form-urlencoded` serializer leaves
unchanged: ASCII letters and digits, `*`, `-`, `.` and `_`. -/
def formSafe (c : Char) : Bool :=
  c.isAlphanum || c == '*' || c == '-' || c == '.' || c == '_'

/-- The percent-encoding of a byte. -/
def percentByte (b : Nat) : List Char :=
  ['%', hexUpper (b / 16), hexUpper (b % 16)]

/-- The `application/x-www-form-urlencoded` encoding of a character: a space
becomes `+`, and a character outside the safe set is percent-encoded byte by
byte from its UTF-8 encoding. -/
def formEncodeChar (c : Char) : List Char :=
  if formSafe c then [c]
  else if c = ' ' then ['+']
  else (utf8Char c).flatMap percentByte

/-- The `application/x-www-form-urlencoded` encoding of a string. -/
def formEncode (s : String) : List Char :=
  s.data.flatMap formEncodeChar

/-- The serialization of a list of name-value pairs: `name=value` joined by
`&` (`URLSearchParams.prototype.toString`). -/
def formSerialize : List (String × String) → List Char
  | [] => []
  | [(name, value)] => formEncode name ++ '=' :: formEncode value
  | (name, value) :: rest =>
    formEncode name ++ '=' :: formEncode value ++ '&' :: formSerialize rest

/-- `scope.join(' ')`. -/
def joinScope (scope : List String) : String :=
  joinSpaces scope

/-! ## `config/oauth.js`: the authorization URL -/

/-- The query parameters `buildAuthorizationURL` composes. -/
def authorizationParams (config : ProviderConfig) (provider state codeChallenge : String)
    (redirectPath : String) : List (String × String) :=
  let params :=
    [ ("client_id", optToString config.clientId),
      ("redirect_uri", optToString config.callbackURL),
      ("response_type", "code"),
      ("scope", joinScope config.scope),
      ("state", stringifyState state redirectPath) ]
  if provider = "google" then
    params ++
      [ ("code_challenge", codeChallenge),
        ("code_challenge_method", "S256"),
        ("access_type", "offline"),
        ("prompt", "consent") ]
  else params

/-- The function `buildAuthorizationURL(provider, state, codeChallenge,
redirectPath = '/')`; an omitted `redirectPath` is `none`. -/
def buildAuthorizationURL (env : Env) (provider state codeChallenge : String)
    (redirectPath : Option String) : Except JSError String :=
  let redirectPath := redirectPath.getD "/"
  match oauthConfig env provider with
  | none => .error (mkError ("Unknown OAuth provider: " ++ provider))
  | some config =>
    let params := authorizationParams config provider state codeChallenge redirectPath
    .ok (config.authorizationURL ++ "?" ++ String.mk (formSerialize params))

/-- The function `validateState(receivedState, storedState)`. -/
def validateState (receivedState storedState : String) : Bool :=
  receivedState == storedState

/-! ## Reading a URL back -/

/-- The query of a URL: what follows the first `?`. -/
def queryOf (url : String) : List Char :=
  (url.data.dropWhile (fun c => c != '?')).drop 1

/-- The name-value pairs of a query, still encoded: the query is cut at
every `&`, and each piece at its first `=`. -/
def queryPairs (url : String) : List (List Char × List Char) :=
  (splitOnChar '&' (queryOf url)).map
    (fun piece => (piece.takeWhile (fun c => c != '='), (piece.dropWhile (fun c => c != '=')).drop 1))

/-- A name-value pair as the serializer writes it. -/
def encodePair (pair : String × String) : List Char × List Char :=
  (formEncode pair.1, formEncode pair.2)

/-- The URL has a query parameter of this name. -/
def hasQueryParam (url : String) (name : String) : Prop :=
  ∃ pair ∈ queryPairs url, pair.1 = formEncode name

/-- The URL has the query parameter of this name with this value. -/
def hasQueryParamValue (url : String) (name value : String) : Prop :=
  encodePair (name, value) ∈ queryPairs url

/-- The providers for which the source adds the PKCE parameters ("Only add
PKCE for providers that support it (Google)"). -/
def supportsPKCE (provider : String) : Bool :=
  provider == "google"

/-! ## The email-list endpoint and the trace of requests -/

/-- An entry of the email list is flagged both primary and verified: its
`primary` and its `verified` are truthy. -/
def flaggedEntry (entry : JSVal) : Bool :=
  (entry.optProp "primary").truthy && (entry.optProp "verified").truthy

/-- The HTTP requests among the effects, in the order they were sent. -/
def httpRequests : List Effect → List HttpRequest
  | [] => []
  | .http req :: rest => req :: httpRequests rest
  | .log _ _ _ :: rest => httpRequests rest

/-- The secondary email lookup was performed: a second request was sent. -/
def emailLookupPerformed (effects : List Effect) : Bool :=
  decide (2 ≤ (httpRequests effects).length)

/-! ## Sample inputs -/

/-- A sample environment, with every variable set. -/
def sampleEnv : Env :=
  { GOOGLE_CLIENT_ID := some "google-client"
    GOOGLE_CLIENT_SECRET := some "google-secret"
    GOOGLE_REDIRECT_URI := some "http://localhost:5000/api/auth/oauth/google/callback"
    GITHUB_CLIENT_ID := some "github-client"
    GITHUB_CLIENT_SECRET := some "github-secret"
    GITHUB_REDIRECT_URI := some "http://localhost:5000/api/auth/oauth/github/callback" }

/-- An HTTP layer whose every request resolves with the empty object. -/
def httpEmptyObject : Http :=
  fun _ => .ok (.obj [])

/-- An HTTP layer whose every request is answered with status 400 and an
OAuth error body. -/
def httpBadRequest : Http :=
  fun _ =>
    .error
      { name := "AxiosError"
        message := "Request failed with status code 400"
        response :=
          some (.obj [("error", .str "invalid_grant"), ("error_description", .str "Bad Request")]) }

/-- An HTTP layer whose every request resolves with a token response. -/
def httpTokenResponse : Http :=
  fun _ =>
    .ok (.obj [("access_token", .str "ya29.token"), ("expires_in", .num 3599),
      ("token_type", .str "Bearer")])

/-- An entropy source that returns the bytes `0, 1, 2, ..`. -/
def countingBytes : Nat → List Nat :=
  fun n => List.range n

/-- A network failure. -/
def networkError : JSError :=
  { name := "AxiosError", message := "connect ECONNREFUSED", response := none }

/-- The HTTP layer of the GitHub example of the specification: the profile
`{id:42, login:'octo', name:null, email:null, avatar_url:'u'}` and the email
list `[{email:'x@y.com', primary:true, verified:true}]`. -/
def httpGithubExample : Http :=
  fun req =>
    if req.url = "https://api.github.com/user" then
      .ok (.obj [("id", .num 42), ("login", .str "octo"), ("name", .null), ("email", .null),
        ("avatar_url", .str "u")])
    else if req.url = "https://api.github.com/user/emails" then
      .ok (.arr [.obj [("email", .str "x@y.com"), ("primary", .bool true),
        ("verified", .bool true)]])
    else .error networkError

/-- The same HTTP layer, the profile having the id `1e21`. -/
def httpGithubLargeId : Http :=
  fun req =>
    if req.url = "https://api.github.com/user" then
      .ok (.obj [("id", .num 1000000000000000000000), ("login", .str "octo"), ("name", .null),
        ("email", .null), ("avatar_url", .str "u")])
    else if req.url = "https://api.github.com/user/emails" then
      .ok (.arr [.obj [("email", .str "x@y.com"), ("primary", .bool true),
        ("verified", .bool true)]])
    else .error networkError

/-- An HTTP layer whose GitHub email list has no entry flagged both primary
and verified. -/
def httpGithubNoPrimary : Http :=
  fun req =>
    if req.url = "https://api.github.com/user" then
      .ok (.obj [("id", .num 42), ("login", .str "octo"), ("name", .str "Octo Cat"),
        ("email", .null)])
    else if req.url = "https://api.github.com/user/emails" then
      .ok (.arr [.obj [("email", .str "a@b.com"), ("primary", .bool true),
          ("verified", .bool false)],
        .obj [("email", .str "c@d.com"), ("primary", .bool false), ("verified", .bool true)]])
    else .error networkError

/-- An HTTP layer whose token endpoint answers with success and a body that
is `null`. -/
def httpNullBody : Http :=
  fun _ => .ok .null

/-! ## Lemmas on objects -/

theorem JSVal.lookup_of_hasKey_false (k : String) (fields : List (String × JSVal))
    (h : JSVal.hasKey k fields = false) : JSVal.lookup k fields = .undefined := by
  induction fields with
  | nil => rfl
  | cons p rest ih =>
    obtain ⟨k', v⟩ := p
    by_cases hk : k' = k
    · simp [JSVal.hasKey, hk] at h
    · simp only [JSVal.hasKey, hk, if_false] at h
      simp only [JSVal.lookup, hk, if_false]
      exact ih h

theorem JSVal.lookup_update_same (k : String) (x : JSVal) (fields : List (String × JSVal)) :
    JSVal.lookup k (JSVal.update k x fields) = x := by
  induction fields with
  | nil => simp [JSVal.update, JSVal.lookup]
  | cons p rest ih =>
    obtain ⟨k', v⟩ := p
    by_cases hk : k' = k
    · simp [JSVal.update, JSVal.lookup, hk]
    · simp [JSVal.update, JSVal.lookup, hk, ih]

theorem JSVal.lookup_update_other (k k' : String) (x : JSVal) (fields : List (String × JSVal))
    (h : k ≠ k') : JSVal.lookup k' (JSVal.update k x fields) = JSVal.lookup k' fields := by
  induction fields with
  | nil => simp [JSVal.update, JSVal.lookup, h]
  | cons p rest ih =>
    obtain ⟨k'', v⟩ := p
    by_cases hk : k'' = k
    · subst hk
      simp [JSVal.update, JSVal.lookup, h]
    · by_cases hk' : k'' = k'
      · subst hk'
        simp [JSVal.update, JSVal.lookup, hk]
      · simp [JSVal.update, JSVal.lookup, hk, hk', ih]

theorem JSVal.or_of_truthy (a b : JSVal) (h : a.truthy = true) : a.or b = a := by
  simp [JSVal.or, h]

theorem JSVal.or_of_falsy (a b : JSVal) (h : a.truthy = false) : a.or b = b := by
  simp [JSVal.or, h]

/-! ## Profile normalisation -/

/-- C2: for every provider identifier other than `google` and `github` and
every raw profile, `normalizeUserProfile` throws the error
`Unsupported provider: <identifier>`, and so returns no record at all. -/
theorem normalizeUserProfile_unsupported (provider : String) (rawProfile : JSVal)
    (hgoogle : provider ≠ "google") (hgithub : provider ≠ "github") :
    normalizeUserProfile provider rawProfile
        = .error (mkError ("Unsupported provider: " ++ provider))
      ∧ ∀ record, normalizeUserProfile provider rawProfile ≠ .ok record := by
  have h : normalizeUserProfile provider rawProfile
      = .error (mkError ("Unsupported provider: " ++ provider)) := by
    simp only [normalizeUserProfile, hgoogle, hgithub, if_false]
    rfl
  refine ⟨h, ?_⟩
  intro record hrec
  rw [h] at hrec
  cases hrec

theorem normalizeUserProfile_unsupported_witness :
    normalizeUserProfile "facebook" (.obj [("id", .str "7"), ("email", .str "a@b.com")])
      = .error (mkError ("Unsupported provider: " ++ "facebook")) :=
  (normalizeUserProfile_unsupported "facebook" _ (by decide) (by decide)).1

/-- C9: for every Google raw profile (an object), `normalizeUserProfile`
returns a record whose `providerId` is `id`, `email` is `email`, `firstName`
is `given_name || ''`, `lastName` is `family_name || ''`, `displayName` is
`name || ''`, `profilePicture` is `picture || ''`, `emailVerified` is
`verified_email || false` and `raw` is the profile; in particular each
defaulted field is `''` (`false` for `emailVerified`) when the profile has no
such entry. -/
theorem normalizeUserProfile_google (fields : List (String × JSVal)) :
    ∃ record,
      normalizeUserProfile "google" (.obj fields) = .ok record
        ∧ record.providerId = JSVal.lookup "id" fields
        ∧ record.email = JSVal.lookup "email" fields
        ∧ record.firstName = (JSVal.lookup "given_name" fields).or (.str "")
        ∧ record.lastName = (JSVal.lookup "family_name" fields).or (.str "")
        ∧ record.displayName = (JSVal.lookup "name" fields).or (.str "")
        ∧ record.profilePicture = (JSVal.lookup "picture" fields).or (.str "")
        ∧ record.emailVerified = (JSVal.lookup "verified_email" fields).or (.bool false)
        ∧ record.raw = .obj fields
        ∧ (JSVal.hasKey "given_name" fields = false → record.firstName = .str "")
        ∧ (JSVal.hasKey "family_name" fields = false → record.lastName = .str "")
        ∧ (JSVal.hasKey "name" fields = false → record.displayName = .str "")
        ∧ (JSVal.hasKey "picture" fields = false → record.profilePicture = .str "")
        ∧ (JSVal.hasKey "verified_email" fields = false →
            record.emailVerified = .bool false) := by
  have habsent : ∀ k fallback, JSVal.hasKey k fields = false →
      (JSVal.lookup k fields).or fallback = fallback := by
    intro k fallback h
    rw [JSVal.lookup_of_hasKey_false k fields h]
    rfl
  exact ⟨_, rfl, rfl, rfl, rfl, rfl, rfl, rfl, rfl, rfl, habsent _ _, habsent _ _, habsent _ _,
    habsent _ _, habsent _ _⟩

/-- The Google example of the specification, through the theorem: the
profile has no `name` and no `picture`, which default to `''`. -/
theorem normalizeUserProfile_google_witness :
    ∃ record,
      normalizeUserProfile "google"
          (.obj [("id", .str "123"), ("email", .str "a@b.com"), ("given_name", .str "A"),
            ("family_name", .str "B"), ("verified_email", .bool true)]) = .ok record
        ∧ record.providerId = .str "123" ∧ record.email = .str "a@b.com"
        ∧ record.firstName = .str "A" ∧ record.lastName = .str "B"
        ∧ record.displayName = .str "" ∧ record.profilePicture = .str ""
        ∧ record.emailVerified = .bool true :=
  match normalizeUserProfile_google
      [("id", .str "123"), ("email", .str "a@b.com"), ("given_name", .str "A"),
        ("family_name", .str "B"), ("verified_email", .bool true)] with
  | ⟨record, hok, hid, hemail, hfirst, hlast, _, _, hverified, _, _, _, hname, hpicture, _⟩ =>
    ⟨record, hok, hid, hemail, hfirst, hlast, hname rfl, hpicture rfl, hverified⟩

/-- The Google example of the specification: `{id:'123', email:'a@b.com',
given_name:'A', family_name:'B', verified_email:true}`. -/
theorem normalizeUserProfile_google_example :
    normalizeUserProfile "google"
        (.obj [("id", .str "123"), ("email", .str "a@b.com"), ("given_name", .str "A"),
          ("family_name", .str "B"), ("verified_email", .bool true)])
      = .ok
          { providerId := .str "123"
            email := .str "a@b.com"
            firstName := .str "A"
            lastName := .str "B"
            displayName := .str ""
            profilePicture := .str ""
            raw := .obj [("id", .str "123"), ("email", .str "a@b.com"), ("given_name", .str "A"),
              ("family_name", .str "B"), ("verified_email", .bool true)]
            emailVerified := .bool true } := by
  rfl

/-- C3, at the failing input: for the provider `google` and the raw profile
`{id: 123}`, whose `id` is a number, the record returned by
`normalizeUserProfile` has the number `123` as its `providerId`, which is not
a string; the `github` branch returns the string `'123'` for the same
profile (it needs a `login`, which the profile here carries as well). -/
theorem normalizeUserProfile_google_numeric_id :
    (∃ record,
        normalizeUserProfile "google" (.obj [("id", .num 123), ("login", .str "octo")])
          = .ok record
        ∧ record.providerId = .num 123 ∧ record.providerId.isString = false)
      ∧ (∃ record,
        normalizeUserProfile "github" (.obj [("id", .num 123), ("login", .str "octo")])
          = .ok record
        ∧ record.providerId = .str "123" ∧ record.providerId.isString = true) :=
  ⟨⟨_, rfl, rfl, rfl⟩, ⟨_, rfl, rfl, rfl⟩⟩

/-! ## Revocation -/

/-- C7: for every token, every provider identifier and every behaviour of the
HTTP layer (a call may resolve or reject with any error), `revokeToken`
completes normally: its outcome is never a thrown error. -/
theorem revokeToken_completes (env : Env) (http : Http) (provider token : String) :
    (revokeToken env http provider token).2 = .ok () := by
  unfold revokeToken
  generalize revokeAttempt env http provider token = attempt
  obtain ⟨effects, outcome⟩ := attempt
  cases outcome <;> rfl

/-! ## Code-for-token exchange -/

/-- C4, as the code has it: for every provider of the registry,
`exchangeCodeForToken` reads the token set from the body of a successful
response without checking it.  When the body is neither `null` nor
`undefined` it returns the token set whose `accessToken` is the body's
`access_token`, so a body with no `access_token` gives a token set whose
`accessToken` is `undefined`; when the body is `null` or `undefined` it throws
the exchange error, with the engine's message for the failed property read;
and every token set it returns was read in this way from a successful
response. -/
theorem exchangeCodeForToken_success (env : Env) (http : Http) (provider code : String)
    (codeVerifier redirectUri : Option String) (config : ProviderConfig)
    (hconfig : oauthConfig env provider = some config) :
    (∀ data, http (tokenRequest config provider code codeVerifier redirectUri) = .ok data →
        data.isNullish = false →
        (exchangeCodeForToken env http provider code codeVerifier redirectUri).2
          = .ok
              { accessToken := data.optProp "access_token"
                refreshToken := data.optProp "refresh_token"
                expiresIn := data.optProp "expires_in"
                tokenType := data.optProp "token_type" })
      ∧ (∀ data, http (tokenRequest config provider code codeVerifier redirectUri) = .ok data →
          data.isNullish = false → data.optProp "access_token" = .undefined →
          ∃ tokens,
            (exchangeCodeForToken env http provider code codeVerifier redirectUri).2 = .ok tokens
              ∧ tokens.accessToken = .undefined)
      ∧ (http (tokenRequest config provider code codeVerifier redirectUri) = .ok .null →
          (exchangeCodeForToken env http provider code codeVerifier redirectUri).2
            = .error (mkError ("Failed to exchange code for token: "
                ++ "Cannot read properties of null (reading 'access_token')")))
      ∧ (http (tokenRequest config provider code codeVerifier redirectUri) = .ok .undefined →
          (exchangeCodeForToken env http provider code codeVerifier redirectUri).2
            = .error (mkError ("Failed to exchange code for token: "
                ++ "Cannot read properties of undefined (reading 'access_token')")))
      ∧ (∀ tokens,
          (exchangeCodeForToken env http provider code codeVerifier redirectUri).2 = .ok tokens →
          ∃ data, http (tokenRequest config provider code codeVerifier redirectUri) = .ok data
            ∧ data.isNullish = false ∧ tokens.accessToken = data.optProp "access_token") := by
  have hread : ∀ data,
      http (tokenRequest config provider code codeVerifier redirectUri) = .ok data →
      data.isNullish = false →
      (exchangeCodeForToken env http provider code codeVerifier redirectUri).2
        = .ok
            { accessToken := data.optProp "access_token"
              refreshToken := data.optProp "refresh_token"
              expiresIn := data.optProp "expires_in"
              tokenType := data.optProp "token_type" } := by
    intro data hhttp hdata
    simp only [exchangeCodeForToken, exchangeAttempt, hconfig, hhttp]
    cases data <;> first | rfl | cases hdata
  have hnull : http (tokenRequest config provider code codeVerifier redirectUri) = .ok .null →
      (exchangeCodeForToken env http provider code codeVerifier redirectUri).2
        = .error (mkError ("Failed to exchange code for token: "
            ++ "Cannot read properties of null (reading 'access_token')")) := by
    intro hhttp
    simp only [exchangeCodeForToken, exchangeAttempt, hconfig, hhttp]
    rfl
  have hundefined :
      http (tokenRequest config provider code codeVerifier redirectUri) = .ok .undefined →
      (exchangeCodeForToken env http provider code codeVerifier redirectUri).2
        = .error (mkError ("Failed to exchange code for token: "
            ++ "Cannot read properties of undefined (reading 'access_token')")) := by
    intro hhttp
    simp only [exchangeCodeForToken, exchangeAttempt, hconfig, hhttp]
    rfl
  refine ⟨hread, ?_, hnull, hundefined, ?_⟩
  · intro data hhttp hdata hnone
    exact ⟨_, hread data hhttp hdata, hnone⟩
  · intro tokens htokens
    cases hhttp : http (tokenRequest config provider code codeVerifier redirectUri) with
    | error error =>
      exfalso
      simp only [exchangeCodeForToken, exchangeAttempt, hconfig, hhttp] at htokens
      split at htokens <;> cases htokens
    | ok data =>
      cases hdata : data.isNullish with
      | false =>
        rw [hread data hhttp hdata] at htokens
        cases htokens
        exact ⟨data, rfl, hdata, rfl⟩
      | true =>
        exfalso
        cases data with
        | undefined =>
          rw [hundefined hhttp] at htokens
          cases htokens
        | null =>
          rw [hnull hhttp] at htokens
          cases htokens
        | bool _ => cases hdata
        | num _ => cases hdata
        | str _ => cases hdata
        | arr _ => cases hdata
        | obj _ => cases hdata

theorem exchangeCodeForToken_success_witness :
    (exchangeCodeForToken sampleEnv httpTokenResponse "google" "4/code" (some "verifier") none).2
        = .ok
            { accessToken := .str "ya29.token"
              refreshToken := .undefined
              expiresIn := .num 3599
              tokenType := .str "Bearer" }
      ∧ (exchangeCodeForToken sampleEnv httpNullBody "github" "code" none none).2
        = .error (mkError ("Failed to exchange code for token: "
            ++ "Cannot read properties of null (reading 'access_token')")) :=
  ⟨(exchangeCodeForToken_success sampleEnv httpTokenResponse "google" "4/code" (some "verifier")
      none _ rfl).1 _ rfl rfl,
    (exchangeCodeForToken_success sampleEnv httpNullBody "github" "code" none none _ rfl).2.2.1
      rfl⟩

/-- C4 as stated fails: the token endpoint of `github` answers with success
and the body `{}`, which has no `access_token`; `exchangeCodeForToken` does
not throw but returns a token set whose `accessToken` is `undefined`. -/
theorem exchangeCodeForToken_missing_access_token :
    ∃ tokens,
      (exchangeCodeForToken sampleEnv httpEmptyObject "github" "code" none none).2 = .ok tokens
        ∧ tokens.accessToken = .undefined :=
  ⟨_, rfl, rfl⟩

/-- C8: whenever the token-endpoint call of `exchangeCodeForToken` fails
(for a provider of the registry and any rejection of the HTTP layer), the
method throws an error whose message is `Failed to exchange code for token: `
followed by the `error_description` of the failed response when that is a
non-empty string (more generally, by its string conversion when it is any
truthy value), and followed by the message of the transport error when the
response carries no `error_description` (none at all, or a falsy one). -/
theorem exchangeCodeForToken_failure (env : Env) (http : Http) (provider code : String)
    (codeVerifier redirectUri : Option String) (config : ProviderConfig) (error : JSError)
    (hconfig : oauthConfig env provider = some config)
    (hhttp : http (tokenRequest config provider code codeVerifier redirectUri) = .error error) :
    (∀ description, error.errorDescription = .str description → description ≠ "" →
        (exchangeCodeForToken env http provider code codeVerifier redirectUri).2
          = .error (mkError ("Failed to exchange code for token: " ++ description)))
      ∧ (∀ text, error.errorDescription.truthy = true →
          error.errorDescription.toStr = .ok text →
          (exchangeCodeForToken env http provider code codeVerifier redirectUri).2
            = .error (mkError ("Failed to exchange code for token: " ++ text)))
      ∧ (error.errorDescription.truthy = false →
          (exchangeCodeForToken env http provider code codeVerifier redirectUri).2
            = .error (mkError ("Failed to exchange code for token: " ++ error.message))) := by
  have general : ∀ text, error.errorDescription.truthy = true →
      error.errorDescription.toStr = .ok text →
      (exchangeCodeForToken env http provider code codeVerifier redirectUri).2
        = .error (mkError ("Failed to exchange code for token: " ++ text)) := by
    intro text htruthy htext
    simp only [exchangeCodeForToken, exchangeAttempt, hconfig, hhttp,
      JSVal.or_of_truthy _ _ htruthy, htext]
  refine ⟨?_, general, ?_⟩
  · intro description hdesc hne
    apply general
    · rw [hdesc]
      simp [JSVal.truthy, hne]
    · rw [hdesc]
      rfl
  · intro hfalsy
    simp only [exchangeCodeForToken, exchangeAttempt, hconfig, hhttp,
      JSVal.or_of_falsy _ _ hfalsy]
    rfl

theorem exchangeCodeForToken_failure_witness :
    (exchangeCodeForToken sampleEnv httpBadRequest "google" "4/code" (some "verifier") none).2
      = .error (mkError ("Failed to exchange code for token: " ++ "Bad Request")) :=
  (exchangeCodeForToken_failure sampleEnv httpBadRequest "google" "4/code" (some "verifier")
    none _ _ rfl rfl).1 "Bad Request" rfl (by decide)

/-! ## Profile retrieval -/

theorem JSVal.getProp_of_not_nullish (v : JSVal) (k : String) (h : v.isNullish = false) :
    v.getProp k = .ok (v.optProp k) := by
  cases v <;> first | rfl | cases h

theorem flaggedEntry_obj (entry : JSVal) (h : flaggedEntry entry = true) :
    ∃ fields, entry = .obj fields := by
  cases entry with
  | obj fields => exact ⟨fields, rfl⟩
  | undefined => cases h
  | null => cases h
  | bool _ => cases h
  | num _ => cases h
  | str _ => cases h
  | arr _ => cases h

theorem findPrimaryVerified_step (entry : JSVal) (rest : List JSVal)
    (hentry : entry.isNullish = false) :
    findPrimaryVerified (entry :: rest)
      = if flaggedEntry entry then .ok entry else findPrimaryVerified rest := by
  simp only [findPrimaryVerified, JSVal.getProp_of_not_nullish entry _ hentry, flaggedEntry]
  by_cases hprimary : (entry.optProp "primary").truthy = true
  · by_cases hverified : (entry.optProp "verified").truthy = true <;>
      simp [hprimary, hverified]
  · simp [hprimary]

theorem findPrimaryVerified_first (before : List JSVal) (entry : JSVal) (after : List JSVal)
    (hbefore : ∀ other ∈ before, other.isNullish = false ∧ flaggedEntry other = false)
    (hentry : flaggedEntry entry = true) :
    findPrimaryVerified (before ++ entry :: after) = .ok entry := by
  induction before with
  | nil =>
    obtain ⟨fields, hobj⟩ := flaggedEntry_obj entry hentry
    rw [List.nil_append, findPrimaryVerified_step entry after (by rw [hobj]; rfl), hentry]
    rfl
  | cons other rest ih =>
    obtain ⟨hother, hflag⟩ := hbefore other (List.mem_cons_self _ _)
    rw [List.cons_append, findPrimaryVerified_step other _ hother, hflag]
    exact ih (fun x hx => hbefore x (List.mem_cons_of_mem _ hx))

theorem findPrimaryVerified_none (entries : List JSVal)
    (hentries : ∀ other ∈ entries, other.isNullish = false ∧ flaggedEntry other = false) :
    findPrimaryVerified entries = .ok .undefined := by
  induction entries with
  | nil => rfl
  | cons other rest ih =>
    obtain ⟨hother, hflag⟩ := hentries other (List.mem_cons_self _ _)
    rw [findPrimaryVerified_step other _ hother, hflag]
    exact ih (fun x hx => hentries x (List.mem_cons_of_mem _ hx))

theorem chooseEmail_first (before : List JSVal) (entry : JSVal) (after : List JSVal)
    (hbefore : ∀ other ∈ before, other.isNullish = false ∧ flaggedEntry other = false)
    (hentry : flaggedEntry entry = true) :
    chooseEmail (.arr (before ++ entry :: after)) = .ok (entry.optProp "email") := by
  obtain ⟨fields, hobj⟩ := flaggedEntry_obj entry hentry
  simp only [chooseEmail, findInResponse, findPrimaryVerified_first before entry after hbefore hentry]
  rw [hobj]
  rfl

theorem chooseEmail_none (entries : List JSVal)
    (hentries : ∀ other ∈ entries, other.isNullish = false ∧ flaggedEntry other = false) :
    chooseEmail (.arr entries) = .ok (firstEntryEmail (.arr entries)) := by
  simp only [chooseEmail, findInResponse, findPrimaryVerified_none entries hentries]
  rfl

theorem JSVal.str_or_empty (text : String) : (JSVal.str text).or (.str "") = .str text := by
  by_cases h : text = ""
  · subst h
    rfl
  · simp [JSVal.or, JSVal.truthy, h]

theorem numberToString_safe (n : Int) (h : n.natAbs < 9007199254740992) :
    numberToString n = n.repr := by
  simp [numberToString, h]

/-- Normalisation of a GitHub profile with a numeric `id`, a `login` and a
`null` name. -/
theorem normalizeUserProfile_github_login (fields : List (String × JSVal)) (id : Int)
    (login : String)
    (hid : JSVal.lookup "id" fields = .num id)
    (hlogin : JSVal.lookup "login" fields = .str login)
    (hname : JSVal.lookup "name" fields = .null) :
    normalizeUserProfile "github" (.obj fields)
      = .ok
          { providerId := .str (numberToString id)
            email := (JSVal.lookup "email" fields).or (.str "")
            firstName := .str login
            lastName := .str ""
            displayName := .str login
            profilePicture := (JSVal.lookup "avatar_url" fields).or (.str "")
            raw := .obj fields
            emailVerified := .bool true } := by
  have hne : ("github" = "google") = False := by decide
  simp only [normalizeUserProfile, hne, if_false, if_true, JSVal.getProp, hid, hlogin, hname,
    JSVal.callToString, JSVal.toStr, optSplit]
  rfl

/-- The `email` of a normalised GitHub profile is `rawProfile.email || ''`,
and its `raw` is the profile. -/
theorem normalizeUserProfile_github_email (fields : List (String × JSVal))
    (record : NormalizedProfile)
    (h : normalizeUserProfile "github" (.obj fields) = .ok record) :
    record.email = (JSVal.lookup "email" fields).or (.str "") ∧ record.raw = .obj fields := by
  have hne : ("github" = "google") = False := by decide
  simp only [normalizeUserProfile, hne, if_false, if_true, JSVal.getProp] at h
  cases hid : (JSVal.lookup "id" fields).callToString "rawProfile.id" with
  | error thrown => simp [hid, bind, Except.bind] at h
  | ok id =>
    cases hsplit : optSplit (JSVal.lookup "name" fields) "rawProfile.name" with
    | error thrown => simp [hid, hsplit, bind, Except.bind, pure, Except.pure] at h
    | ok parts =>
      simp [hid, hsplit, bind, Except.bind, pure, Except.pure] at h
      subst h
      exact ⟨rfl, rfl⟩

/-- The record `getUserProfile` returns for a GitHub profile with a numeric
`id`, a `login`, a `null` name and a `null` email, when the email list has a
first entry flagged both primary and verified, whose email is a string. -/
theorem getUserProfile_github_record (env : Env) (http : Http) (accessToken : String)
    (config : ProviderConfig) (fields : List (String × JSVal)) (id : Int) (login : String)
    (before : List JSVal) (entry : JSVal) (after : List JSVal) (address : String)
    (hconfig : oauthConfig env "github" = some config)
    (hid : JSVal.lookup "id" fields = .num id)
    (hlogin : JSVal.lookup "login" fields = .str login)
    (hname : JSVal.lookup "name" fields = .null)
    (hemail : JSVal.lookup "email" fields = .null)
    (hprofile : http (userInfoRequest config "github" accessToken) = .ok (.obj fields))
    (hemails : http (userEmailRequest config "github" accessToken)
      = .ok (.arr (before ++ entry :: after)))
    (hbefore : ∀ other ∈ before, other.isNullish = false ∧ flaggedEntry other = false)
    (hentry : flaggedEntry entry = true)
    (haddress : entry.optProp "email" = .str address) :
    (getUserProfile env http "github" accessToken).2
      = .ok
          { providerId := .str (numberToString id)
            email := .str address
            firstName := .str login
            lastName := .str ""
            displayName := .str login
            profilePicture :=
              (JSVal.lookup "avatar_url" (JSVal.update "email" (.str address) fields)).or
                (.str "")
            raw := .obj (JSVal.update "email" (.str address) fields)
            emailVerified := .bool true } := by
  have hnorm := normalizeUserProfile_github_login
    (JSVal.update "email" (.str address) fields) id login
    (by rw [JSVal.lookup_update_other _ _ _ _ (by decide), hid])
    (by rw [JSVal.lookup_update_other _ _ _ _ (by decide), hlogin])
    (by rw [JSVal.lookup_update_other _ _ _ _ (by decide), hname])
  rw [JSVal.lookup_update_same, JSVal.str_or_empty] at hnorm
  simp only [getUserProfile, profileAttempt, hconfig, hprofile, hemails, if_true,
    JSVal.getProp, hemail, JSVal.truthy, chooseEmail_first before entry after hbefore hentry,
    haddress, JSVal.setProp, bind, Except.bind, Bool.not_false, hnorm]

/-- C5, as the code has it: for every GitHub raw profile whose `id` is an
integer, with a `login`, a `null` name and a `null` email, and every email
list whose first entry flagged both primary and verified has a string
`email` (the entries before it being neither `null` nor `undefined`),
`getUserProfile('github', ..)` returns a record whose `providerId` is
`id.toString()`, which is the decimal string of `id` when `id` is a safe
integer (magnitude below 2^53), whose `email` is the email of that entry,
whose `firstName` and `displayName` are `login`, whose `lastName` is empty and
whose `emailVerified` is `true`. -/
theorem getUserProfile_github (env : Env) (http : Http) (accessToken : String)
    (config : ProviderConfig) (fields : List (String × JSVal)) (id : Int) (login : String)
    (before : List JSVal) (entry : JSVal) (after : List JSVal) (address : String)
    (hconfig : oauthConfig env "github" = some config)
    (hid : JSVal.lookup "id" fields = .num id)
    (hlogin : JSVal.lookup "login" fields = .str login)
    (hname : JSVal.lookup "name" fields = .null)
    (hemail : JSVal.lookup "email" fields = .null)
    (hprofile : http (userInfoRequest config "github" accessToken) = .ok (.obj fields))
    (hemails : http (userEmailRequest config "github" accessToken)
      = .ok (.arr (before ++ entry :: after)))
    (hbefore : ∀ other ∈ before, other.isNullish = false ∧ flaggedEntry other = false)
    (hentry : flaggedEntry entry = true)
    (haddress : entry.optProp "email" = .str address) :
    ∃ record,
      (getUserProfile env http "github" accessToken).2 = .ok record
        ∧ record.providerId = .str (numberToString id)
        ∧ (id.natAbs < 9007199254740992 → record.providerId = .str id.repr)
        ∧ record.email = .str address
        ∧ record.firstName = .str login
        ∧ record.displayName = .str login
        ∧ record.lastName = .str ""
        ∧ record.emailVerified = .bool true := by
  refine ⟨_, getUserProfile_github_record env http accessToken config fields id login before
    entry after address hconfig hid hlogin hname hemail hprofile hemails hbefore hentry
    haddress, rfl, ?_, rfl, rfl, rfl, rfl, rfl⟩
  intro hsafe
  show JSVal.str (numberToString id) = JSVal.str id.repr
  rw [numberToString_safe id hsafe]

/-- The GitHub example of the specification, through the theorem. -/
theorem getUserProfile_github_witness :
    ∃ record,
      (getUserProfile sampleEnv httpGithubExample "github" "gho_token").2 = .ok record
        ∧ record.providerId = .str "42"
        ∧ record.email = .str "x@y.com"
        ∧ record.firstName = .str "octo"
        ∧ record.displayName = .str "octo"
        ∧ record.lastName = .str ""
        ∧ record.emailVerified = .bool true :=
  match getUserProfile_github sampleEnv httpGithubExample "gho_token" _
      [("id", .num 42), ("login", .str "octo"), ("name", .null), ("email", .null),
        ("avatar_url", .str "u")]
      42 "octo" []
      (.obj [("email", .str "x@y.com"), ("primary", .bool true), ("verified", .bool true)])
      [] "x@y.com" rfl rfl rfl rfl rfl rfl rfl (fun _ h => absurd h (List.not_mem_nil _)) rfl
      rfl with
  | ⟨record, hok, _, hid, hmail, hfirst, hdisplay, hlast, hverified⟩ =>
    ⟨record, hok, hid (by decide), hmail, hfirst, hdisplay, hlast, hverified⟩

/-- C5 as stated fails: for the GitHub profile `{id: 1e21, login:'octo',
name:null, email:null, avatar_url:'u'}` and the email list
`[{email:'x@y.com', primary:true, verified:true}]`, the `providerId` of the
record returned by `getUserProfile` is `'1e+21'`, which is not the decimal
string `'1000000000000000000000'` of the id. -/
theorem getUserProfile_github_large_id :
    ∃ record,
      (getUserProfile sampleEnv httpGithubLargeId "github" "gho_token").2 = .ok record
        ∧ record.providerId = .str "1e+21"
        ∧ record.providerId ≠ .str (1000000000000000000000 : Int).repr := by
  have hnumber : numberToString 1000000000000000000000 = "1e+21" := by decide!
  have hrecord := getUserProfile_github_record sampleEnv httpGithubLargeId "gho_token"
    (githubConfig sampleEnv)
    [("id", .num 1000000000000000000000), ("login", .str "octo"), ("name", .null),
      ("email", .null), ("avatar_url", .str "u")]
    1000000000000000000000 "octo" []
    (.obj [("email", .str "x@y.com"), ("primary", .bool true), ("verified", .bool true)])
    [] "x@y.com" rfl rfl rfl rfl rfl rfl rfl (fun _ h => absurd h (List.not_mem_nil _)) rfl
    rfl
  rw [hnumber] at hrecord
  refine ⟨_, hrecord, rfl, ?_⟩
  intro h
  have hstr : "1e+21" = (1000000000000000000000 : Int).repr := by
    injection h
  exact absurd hstr (by decide)

theorem httpRequests_append (first second : List Effect) :
    httpRequests (first ++ second) = httpRequests first ++ httpRequests second := by
  induction first with
  | nil => rfl
  | cons effect rest ih =>
    cases effect with
    | http req => simp [httpRequests, ih]
    | log level message detail => simp [httpRequests, ih]

theorem httpRequests_getUserProfile (env : Env) (http : Http)
    (provider accessToken : String) :
    httpRequests (getUserProfile env http provider accessToken).1
      = httpRequests (profileAttempt env http provider accessToken).1 := by
  unfold getUserProfile
  generalize profileAttempt env http provider accessToken = attempt
  obtain ⟨effects, outcome⟩ := attempt
  cases outcome <;> simp [httpRequests_append, httpRequests]

theorem oauthConfig_google (env : Env) (config : ProviderConfig)
    (h : oauthConfig env "google" = some config) : config.userEmailURL = none := by
  simp only [oauthConfig, if_true, Option.some.injEq] at h
  rw [← h]
  rfl

theorem oauthConfig_github (env : Env) (config : ProviderConfig)
    (h : oauthConfig env "github" = some config) :
    config.userEmailURL = some "https://api.github.com/user/emails"
      ∧ config.userInfoURL = "https://api.github.com/user" := by
  have hne : ("github" = "google") = False := by decide
  simp only [oauthConfig, hne, if_false, if_true, Option.some.injEq] at h
  rw [← h]
  exact ⟨rfl, rfl⟩

theorem getUserProfile_result (env : Env) (http : Http) (provider accessToken : String)
    (effects : List Effect) (outcome : Except JSError NormalizedProfile)
    (h : profileAttempt env http provider accessToken = (effects, outcome)) :
    (getUserProfile env http provider accessToken).2 = rethrowProfileError outcome := by
  unfold getUserProfile
  rw [h]
  cases outcome <;> rfl

/-- The requests `getUserProfile` sends once the userinfo request resolved
with a body whose `email` can be read. -/
theorem httpRequests_profile (env : Env) (http : Http) (provider accessToken : String)
    (config : ProviderConfig) (data email : JSVal)
    (hprovider : provider = "google" ∨ provider = "github")
    (hconfig : oauthConfig env provider = some config)
    (hprofile : http (userInfoRequest config provider accessToken) = .ok data)
    (hemail : data.getProp "email" = .ok email) :
    httpRequests (getUserProfile env http provider accessToken).1
      = if email.truthy = false ∧ config.userEmailURL.isSome = true then
          [userInfoRequest config provider accessToken,
            userEmailRequest config provider accessToken]
        else [userInfoRequest config provider accessToken] := by
  rw [httpRequests_getUserProfile]
  rcases hprovider with hp | hp
  · subst hp
    have hurl := oauthConfig_google env config hconfig
    have hne : ("google" = "github") = False := by decide
    simp [profileAttempt, hconfig, hprofile, hne, hurl, httpRequests]
  · subst hp
    obtain ⟨hurl, _⟩ := oauthConfig_github env config hconfig
    cases htruthy : email.truthy
    · cases hsecond : http (userEmailRequest config "github" accessToken) <;>
        simp only [profileAttempt, hconfig, hprofile, hemail, htruthy, hsecond, if_true,
          Bool.not_false] <;>
        simp [httpRequests, hurl]
    · simp only [profileAttempt, hconfig, hprofile, hemail, htruthy, if_true, Bool.not_true]
      simp [httpRequests]

/-- C6: in `getUserProfile`, for a provider of the registry whose userinfo
request resolved with a body that has an `email` property to read, the
requests sent are the userinfo request followed, exactly when the body has no
(truthy) email and the provider's configuration has a secondary email
endpoint, by one request to that endpoint; so a second request is sent
exactly in that case.  When it is sent and no entry of the email list is
flagged both primary and verified, the email assigned to the profile before
normalisation is the email of the first entry of the list (`undefined` for
the empty list), so that the email of a returned record is that of the first
entry, and the empty string when the list is empty. -/
theorem getUserProfile_email_lookup (env : Env) (http : Http) (provider accessToken : String)
    (config : ProviderConfig) (data email : JSVal)
    (hprovider : provider = "google" ∨ provider = "github")
    (hconfig : oauthConfig env provider = some config)
    (hprofile : http (userInfoRequest config provider accessToken) = .ok data)
    (hemail : data.getProp "email" = .ok email) :
    (httpRequests (getUserProfile env http provider accessToken).1
        = if email.truthy = false ∧ config.userEmailURL.isSome = true then
            [userInfoRequest config provider accessToken,
              userEmailRequest config provider accessToken]
          else [userInfoRequest config provider accessToken])
      ∧ (emailLookupPerformed (getUserProfile env http provider accessToken).1 = true
        ↔ (email.truthy = false ∧ config.userEmailURL.isSome = true))
      ∧ (emailLookupPerformed (getUserProfile env http provider accessToken).1 = true →
          config.userEmailURL = some (userEmailRequest config provider accessToken).url)
      ∧ (∀ fields entries, data = .obj fields →
          emailLookupPerformed (getUserProfile env http provider accessToken).1 = true →
          http (userEmailRequest config provider accessToken) = .ok (.arr entries) →
          (∀ other ∈ entries, other.isNullish = false ∧ flaggedEntry other = false) →
          (getUserProfile env http provider accessToken).2
              = rethrowProfileError
                  (normalizeUserProfile provider
                    (.obj (JSVal.update "email" (firstEntryEmail (.arr entries)) fields)))
            ∧ ∀ record, (getUserProfile env http provider accessToken).2 = .ok record →
                record.email = (firstEntryEmail (.arr entries)).or (.str "")
                  ∧ record.raw
                      = .obj (JSVal.update "email" (firstEntryEmail (.arr entries)) fields)
                  ∧ (entries = [] → record.email = .str "")) := by
  have hrequests :=
    httpRequests_profile env http provider accessToken config data email hprovider hconfig
      hprofile hemail
  have hiff : emailLookupPerformed (getUserProfile env http provider accessToken).1 = true
      ↔ (email.truthy = false ∧ config.userEmailURL.isSome = true) := by
    unfold emailLookupPerformed
    rw [hrequests]
    by_cases hcond : email.truthy = false ∧ config.userEmailURL.isSome = true
    · simp [hcond]
    · simp [hcond]
  have hgithub : emailLookupPerformed (getUserProfile env http provider accessToken).1 = true →
      provider = "github" := by
    intro hperformed
    obtain ⟨_, hsome⟩ := hiff.mp hperformed
    rcases hprovider with hp | hp
    · subst hp
      rw [oauthConfig_google env config hconfig] at hsome
      cases hsome
    · exact hp
  refine ⟨hrequests, hiff, ?_, ?_⟩
  · intro hperformed
    have hp := hgithub hperformed
    subst hp
    simp [userEmailRequest, optToString, (oauthConfig_github env config hconfig).1]
  intro fields entries hdata hperformed hemails hentries
  obtain ⟨hfalsy, _⟩ := hiff.mp hperformed
  have hp := hgithub hperformed
  subst hp
  subst hdata
  have hattempt : profileAttempt env http "github" accessToken
      = ([.http (userInfoRequest config "github" accessToken),
          .http (userEmailRequest config "github" accessToken)],
         normalizeUserProfile "github"
           (.obj (JSVal.update "email" (firstEntryEmail (.arr entries)) fields))) := by
    simp only [profileAttempt, hconfig, hprofile, hemail, hfalsy, hemails, if_true,
      Bool.not_false, chooseEmail_none entries hentries, JSVal.setProp, bind, Except.bind]
  have hresult := getUserProfile_result env http "github" accessToken _ _ hattempt
  refine ⟨hresult, ?_⟩
  intro record hrecord
  rw [hresult] at hrecord
  cases hnorm : normalizeUserProfile "github"
      (.obj (JSVal.update "email" (firstEntryEmail (.arr entries)) fields)) with
  | error thrown =>
    rw [hnorm] at hrecord
    cases hrecord
  | ok normalized =>
    rw [hnorm] at hrecord
    simp only [rethrowProfileError, Except.ok.injEq] at hrecord
    subst hrecord
    obtain ⟨hmail, hraw⟩ := normalizeUserProfile_github_email _ _ hnorm
    rw [JSVal.lookup_update_same] at hmail
    refine ⟨hmail, hraw, ?_⟩
    intro hnil
    rw [hmail, hnil]
    rfl

/-- The theorem at `github` (a `null` email: two requests) and at `google`
(no email either, but no secondary endpoint: one request). -/
theorem getUserProfile_email_lookup_witness :
    httpRequests (getUserProfile sampleEnv httpGithubNoPrimary "github" "gho_token").1
        = [userInfoRequest (githubConfig sampleEnv) "github" "gho_token",
            userEmailRequest (githubConfig sampleEnv) "github" "gho_token"]
      ∧ httpRequests (getUserProfile sampleEnv httpEmptyObject "google" "ya29.token").1
        = [userInfoRequest (googleConfig sampleEnv) "google" "ya29.token"] :=
  ⟨(getUserProfile_email_lookup sampleEnv httpGithubNoPrimary "github" "gho_token"
      (githubConfig sampleEnv)
      (.obj [("id", .num 42), ("login", .str "octo"), ("name", .str "Octo Cat"),
        ("email", .null)])
      .null (Or.inr rfl) rfl rfl rfl).1,
    (getUserProfile_email_lookup sampleEnv httpEmptyObject "google" "ya29.token"
      (googleConfig sampleEnv) (.obj []) .undefined (Or.inl rfl) rfl rfl rfl).1⟩

/-- An email list without a primary and verified entry: the email of the
first entry is used. -/
theorem getUserProfile_no_primary_example :
    ∃ record,
      (getUserProfile sampleEnv httpGithubNoPrimary "github" "gho_token").2 = .ok record
        ∧ record.email = .str "a@b.com" ∧ record.firstName = .str "Octo"
        ∧ record.lastName = .str "Cat" :=
  ⟨_, rfl, rfl, rfl, rfl⟩

/-! ## PKCE -/

theorem base64urlChars_length :
    ∀ bytes : List Nat, (base64urlChars bytes).length = (4 * bytes.length + 2) / 3
  | a :: b :: c :: rest => by
    simp only [base64urlChars, List.length_cons, base64urlChars_length rest]
    omega
  | [a, b] => by simp [base64urlChars]
  | [a] => by simp [base64urlChars]
  | [] => by simp [base64urlChars]

theorem base64urlChar_mem (sextet : Nat) : base64urlChar sextet ∈ base64urlAlphabet := by
  unfold base64urlChar
  by_cases h : sextet < base64urlAlphabet.length
  · rw [List.getD_eq_getElem _ _ h]
    exact List.getElem_mem h
  · rw [List.getD_eq_default _ _ (Nat.le_of_not_lt h)]
    decide

theorem base64urlChars_mem :
    ∀ bytes : List Nat, ∀ c ∈ base64urlChars bytes, c ∈ base64urlAlphabet
  | a :: b :: c :: rest => by
    intro x hx
    simp only [base64urlChars, List.mem_cons] at hx
    rcases hx with h | h | h | h | h
    · exact h ▸ base64urlChar_mem _
    · exact h ▸ base64urlChar_mem _
    · exact h ▸ base64urlChar_mem _
    · exact h ▸ base64urlChar_mem _
    · exact base64urlChars_mem rest x h
  | [a, b] => by
    intro x hx
    simp only [base64urlChars, List.mem_cons, List.not_mem_nil, or_false] at hx
    rcases hx with h | h | h
    · exact h ▸ base64urlChar_mem _
    · exact h ▸ base64urlChar_mem _
    · exact h ▸ base64urlChar_mem _
  | [a] => by
    intro x hx
    simp only [base64urlChars, List.mem_cons, List.not_mem_nil, or_false] at hx
    rcases hx with h | h
    · exact h ▸ base64urlChar_mem _
    · exact h ▸ base64urlChar_mem _
  | [] => by
    intro x hx
    simp [base64urlChars] at hx

theorem Sha256.hash_length (message : List Nat) : (Sha256.hash message).length = 32 := by
  simp [Sha256.hash, Sha256.digest, Sha256.wordBytes]

theorem utf8Char_alphabet : ∀ c ∈ base64urlAlphabet, utf8Char c = [c.toNat] := by
  decide

theorem utf8Bytes_base64url (bytes : List Nat) :
    utf8Bytes (base64url bytes) = (base64url bytes).data.map Char.toNat := by
  have hchars : ∀ chars : List Char, (∀ c ∈ chars, c ∈ base64urlAlphabet) →
      chars.flatMap utf8Char = chars.map Char.toNat := by
    intro chars
    induction chars with
    | nil => intro _; rfl
    | cons c rest ih =>
      intro h
      rw [List.flatMap_cons, utf8Char_alphabet c (h c (List.mem_cons_self _ _)),
        ih (fun x hx => h x (List.mem_cons_of_mem _ hx))]
      rfl
  exact hchars _ (base64urlChars_mem bytes)

/-- C10: for every 32-byte value drawn from the entropy source, the pair
returned by `generatePKCE` has `codeVerifier` the unpadded URL-safe base64
encoding of the 32 bytes, `codeChallenge` the unpadded URL-safe base64
encoding of the SHA-256 digest of `codeVerifier`, and `codeChallengeMethod`
`S256`.  The digest is taken over the 43 characters of the verifier, one byte
each; both strings have 43 characters, all of the URL-safe alphabet (so none
is the padding character).  The SHA-256 and the base64url in these equations
are the standard functions: they give the digests of the FIPS 180-4 examples
of one and of two blocks, and the base64url texts of the RFC 4648 examples. -/
theorem generatePKCE_challenge (randomBytes : Nat → List Nat)
    (hlength : (randomBytes 32).length = 32) :
    (generatePKCE randomBytes).codeVerifier = base64url (randomBytes 32)
      ∧ (generatePKCE randomBytes).codeChallenge
          = base64url (Sha256.hash (utf8Bytes (generatePKCE randomBytes).codeVerifier))
      ∧ (generatePKCE randomBytes).codeChallengeMethod = "S256"
      ∧ utf8Bytes (generatePKCE randomBytes).codeVerifier
          = (generatePKCE randomBytes).codeVerifier.data.map Char.toNat
      ∧ (generatePKCE randomBytes).codeVerifier.length = 43
      ∧ (generatePKCE randomBytes).codeChallenge.length = 43
      ∧ (∀ c ∈ (generatePKCE randomBytes).codeVerifier.data, c ∈ base64urlAlphabet)
      ∧ (∀ c ∈ (generatePKCE randomBytes).codeChallenge.data, c ∈ base64urlAlphabet)
      ∧ Sha256.hash (utf8Bytes "abc")
          = [0xba, 0x78, 0x16, 0xbf, 0x8f, 0x01, 0xcf, 0xea, 0x41, 0x41, 0x40, 0xde, 0x5d,
             0xae, 0x22, 0x23, 0xb0, 0x03, 0x61, 0xa3, 0x96, 0x17, 0x7a, 0x9c, 0xb4, 0x10,
             0xff, 0x61, 0xf2, 0x00, 0x15, 0xad]
      ∧ Sha256.hash (utf8Bytes "abcdbcdecdefdefgefghfghighijhijkijkljklmklmnlmnomnopnopq")
          = [0x24, 0x8d, 0x6a, 0x61, 0xd2, 0x06, 0x38, 0xb8, 0xe5, 0xc0, 0x26, 0x93, 0x0c,
             0x3e, 0x60, 0x39, 0xa3, 0x3c, 0xe4, 0x59, 0x64, 0xff, 0x21, 0x67, 0xf6, 0xec,
             0xed, 0xd4, 0x19, 0xdb, 0x06, 0xc1]
      ∧ base64url (utf8Bytes "foobar") = "Zm9vYmFy"
      ∧ base64url (utf8Bytes "fooba") = "Zm9vYmE"
      ∧ base64url (utf8Bytes "foob") = "Zm9vYg"
      ∧ base64url [0xfb, 0xff, 0xbe] = "-_--" := by
  refine ⟨rfl, rfl, rfl, utf8Bytes_base64url _, ?_, ?_, base64urlChars_mem _,
    base64urlChars_mem _, by decide!, by decide!, by decide!, by decide!, by decide!,
    by decide!⟩
  · show (String.mk (base64urlChars (randomBytes 32))).length = 43
    rw [String.length_mk, base64urlChars_length, hlength]
  · show (String.mk (base64urlChars (Sha256.hash _))).length = 43
    rw [String.length_mk, base64urlChars_length, Sha256.hash_length]

/-- The pair generated from the bytes `0, .., 31`: the verifier and the
challenge are the texts an independent implementation of base64url and
SHA-256 gives. -/
theorem generatePKCE_challenge_witness :
    (generatePKCE countingBytes).codeVerifier = "AAECAwQFBgcICQoLDA0ODxAREhMUFRYXGBkaGxwdHh8"
      ∧ (generatePKCE countingBytes).codeChallenge
          = "6oZqdX5MOLq_qBJ8vppAnT4fk6AP8UiP9zX8-Rev_9A"
      ∧ (generatePKCE countingBytes).codeChallengeMethod = "S256"
      ∧ (generatePKCE countingBytes).codeVerifier.length = 43 :=
  ⟨(generatePKCE_challenge countingBytes rfl).1.trans (by decide!),
    (generatePKCE_challenge countingBytes rfl).2.1.trans (by decide!),
    (generatePKCE_challenge countingBytes rfl).2.2.1,
    (generatePKCE_challenge countingBytes rfl).2.2.2.2.1⟩

/-- The pair generated from the bytes `0, .., 31`, as computed by an
independent implementation of SHA-256 and base64url. -/
theorem generatePKCE_example :
    (generatePKCE countingBytes).codeVerifier = "AAECAwQFBgcICQoLDA0ODxAREhMUFRYXGBkaGxwdHh8"
      ∧ (generatePKCE countingBytes).codeChallenge
          = "6oZqdX5MOLq_qBJ8vppAnT4fk6AP8UiP9zX8-Rev_9A" := by
  decide!

/-- The test vector `abc` of FIPS 180-4. -/
theorem Sha256.hash_abc :
    Sha256.hash (utf8Bytes "abc")
      = [0xba, 0x78, 0x16, 0xbf, 0x8f, 0x01, 0xcf, 0xea, 0x41, 0x41, 0x40, 0xde, 0x5d, 0xae,
         0x22, 0x23, 0xb0, 0x03, 0x61, 0xa3, 0x96, 0x17, 0x7a, 0x9c, 0xb4, 0x10, 0xff, 0x61,
         0xf2, 0x00, 0x15, 0xad] := by
  decide!

/-! ## The authorization URL -/

theorem dropWhile_append_of_all (p : Char → Bool) (l r : List Char) (h : ∀ c ∈ l, p c = true) :
    (l ++ r).dropWhile p = r.dropWhile p := by
  induction l with
  | nil => rfl
  | cons x xs ih =>
    have hx : p x = true := h x (List.mem_cons_self _ _)
    simp only [List.cons_append, List.dropWhile_cons, hx, if_true]
    exact ih (fun c hc => h c (List.mem_cons_of_mem _ hc))

theorem takeWhile_append_of_all (p : Char → Bool) (l : List Char) (x : Char) (r : List Char)
    (h : ∀ c ∈ l, p c = true) (hx : p x = false) :
    (l ++ x :: r).takeWhile p = l := by
  induction l with
  | nil => simp [List.takeWhile_cons, hx]
  | cons y ys ih =>
    have hy : p y = true := h y (List.mem_cons_self _ _)
    simp only [List.cons_append, List.takeWhile_cons, hy, if_true]
    rw [ih (fun c hc => h c (List.mem_cons_of_mem _ hc))]

theorem splitOnChar_of_not_mem (c : Char) (l : List Char) (h : c ∉ l) :
    splitOnChar c l = [l] := by
  induction l with
  | nil => rfl
  | cons x xs ih =>
    have hx : x ≠ c := fun e => h (e ▸ List.mem_cons_self _ _)
    have hxs : c ∉ xs := fun m => h (List.mem_cons_of_mem _ m)
    simp [splitOnChar, hx, ih hxs]

theorem splitOnChar_append (c : Char) (l r : List Char) (h : c ∉ l) :
    splitOnChar c (l ++ c :: r) = l :: splitOnChar c r := by
  induction l with
  | nil => simp [splitOnChar]
  | cons x xs ih =>
    have hx : x ≠ c := fun e => h (e ▸ List.mem_cons_self _ _)
    have hxs : c ∉ xs := fun m => h (List.mem_cons_of_mem _ m)
    simp [splitOnChar, hx, ih hxs]

theorem hexUpper_ne (n : Nat) : hexUpper n ≠ '&' ∧ hexUpper n ≠ '=' := by
  unfold hexUpper
  split <;> decide

theorem formEncodeChar_ne (x c : Char) (h : c ∈ formEncodeChar x) : c ≠ '&' ∧ c ≠ '=' := by
  unfold formEncodeChar at h
  split at h
  · rename_i hsafe
    simp only [List.mem_singleton] at h
    subst h
    constructor
    · intro e
      subst e
      revert hsafe
      decide
    · intro e
      subst e
      revert hsafe
      decide
  · split at h
    · simp only [List.mem_singleton] at h
      subst h
      decide
    · simp only [List.mem_flatMap, percentByte, List.mem_cons, List.not_mem_nil, or_false] at h
      obtain ⟨b, _, hc⟩ := h
      rcases hc with hc | hc | hc
      · subst hc
        decide
      · subst hc
        exact hexUpper_ne _
      · subst hc
        exact hexUpper_ne _

theorem formEncode_ne (s : String) (c : Char) (h : c ∈ formEncode s) : c ≠ '&' ∧ c ≠ '=' := by
  simp only [formEncode, List.mem_flatMap] at h
  obtain ⟨x, _, hc⟩ := h
  exact formEncodeChar_ne x c hc

theorem splitPiece (name value : String) :
    ((formEncode name ++ '=' :: formEncode value).takeWhile (fun c => c != '='),
      ((formEncode name ++ '=' :: formEncode value).dropWhile (fun c => c != '=')).drop 1)
      = encodePair (name, value) := by
  have hall : ∀ c ∈ formEncode name, (c != '=') = true := by
    intro c hc
    simpa using (formEncode_ne name c hc).2
  rw [takeWhile_append_of_all _ _ _ _ hall (by decide), dropWhile_append_of_all _ _ _ hall]
  simp [List.dropWhile_cons, encodePair]

theorem formSerialize_piece_ne (name value : String) :
    '&' ∉ formEncode name ++ '=' :: formEncode value := by
  intro h
  simp only [List.mem_append, List.mem_cons] at h
  rcases h with h | h | h
  · exact (formEncode_ne name _ h).1 rfl
  · exact absurd h (by decide)
  · exact (formEncode_ne value _ h).1 rfl

theorem splitOnChar_formSerialize (pair : String × String) (rest : List (String × String)) :
    (splitOnChar '&' (formSerialize (pair :: rest))).map
        (fun piece =>
          (piece.takeWhile (fun c => c != '='), (piece.dropWhile (fun c => c != '=')).drop 1))
      = (pair :: rest).map encodePair := by
  induction rest generalizing pair with
  | nil =>
    obtain ⟨name, value⟩ := pair
    simp only [formSerialize, splitOnChar_of_not_mem _ _ (formSerialize_piece_ne name value),
      List.map_cons, List.map_nil, splitPiece]
  | cons next rest ih =>
    obtain ⟨name, value⟩ := pair
    have hsplit : formSerialize ((name, value) :: next :: rest)
        = (formEncode name ++ '=' :: formEncode value) ++ '&' :: formSerialize (next :: rest) := by
      simp [formSerialize]
    rw [hsplit, splitOnChar_append _ _ _ (formSerialize_piece_ne name value), List.map_cons,
      splitPiece, ih next]
    rfl

theorem queryPairs_of_serialize (base : String) (pair : String × String)
    (rest : List (String × String)) (hbase : ∀ c ∈ base.data, (c != '?') = true) :
    queryPairs (base ++ "?" ++ String.mk (formSerialize (pair :: rest)))
      = (pair :: rest).map encodePair := by
  have hquery : queryOf (base ++ "?" ++ String.mk (formSerialize (pair :: rest)))
      = formSerialize (pair :: rest) := by
    simp only [queryOf, String.data_append]
    rw [List.append_assoc, dropWhile_append_of_all _ _ _ hbase]
    rfl
  simp only [queryPairs, hquery]
  exact splitOnChar_formSerialize pair rest

theorem queryPairs_google (env : Env) (state codeChallenge : String)
    (redirectPath : Option String) :
    ∃ url,
      buildAuthorizationURL env "google" state codeChallenge redirectPath = .ok url
        ∧ queryPairs url
            = [ encodePair ("client_id", optToString env.GOOGLE_CLIENT_ID),
                encodePair ("redirect_uri", optToString env.GOOGLE_REDIRECT_URI),
                encodePair ("response_type", "code"),
                encodePair ("scope", "profile email"),
                encodePair ("state", stringifyState state (redirectPath.getD "/")),
                encodePair ("code_challenge", codeChallenge),
                encodePair ("code_challenge_method", "S256"),
                encodePair ("access_type", "offline"),
                encodePair ("prompt", "consent") ] :=
  ⟨_, rfl,
    queryPairs_of_serialize "https://accounts.google.com/o/oauth2/v2/auth" _ _ (by decide)⟩

theorem queryPairs_github (env : Env) (state codeChallenge : String)
    (redirectPath : Option String) :
    ∃ url,
      buildAuthorizationURL env "github" state codeChallenge redirectPath = .ok url
        ∧ queryPairs url
            = [ encodePair ("client_id", optToString env.GITHUB_CLIENT_ID),
                encodePair ("redirect_uri", optToString env.GITHUB_REDIRECT_URI),
                encodePair ("response_type", "code"),
                encodePair ("scope", "user:email read:user"),
                encodePair ("state", stringifyState state (redirectPath.getD "/")) ] :=
  ⟨_, rfl, queryPairs_of_serialize "https://github.com/login/oauth/authorize" _ _ (by decide)⟩

theorem github_names_ne (name : String)
    (hname : name = "code_challenge" ∨ name = "code_challenge_method") :
    formEncode "client_id" ≠ formEncode name ∧ formEncode "redirect_uri" ≠ formEncode name
      ∧ formEncode "response_type" ≠ formEncode name ∧ formEncode "scope" ≠ formEncode name
      ∧ formEncode "state" ≠ formEncode name := by
  rcases hname with h | h <;> subst h <;> decide

theorem github_no_param (pairs : List (List Char × List Char)) (a b c d e : String)
    (name : String) (hname : name = "code_challenge" ∨ name = "code_challenge_method")
    (hpairs : pairs
      = [ encodePair ("client_id", a), encodePair ("redirect_uri", b),
          encodePair ("response_type", c), encodePair ("scope", d),
          encodePair ("state", e) ]) :
    ¬ ∃ pair ∈ pairs, pair.1 = formEncode name := by
  obtain ⟨h1, h2, h3, h4, h5⟩ := github_names_ne name hname
  rintro ⟨pair, hmem, heq⟩
  rw [hpairs] at hmem
  simp only [List.mem_cons, List.not_mem_nil, or_false] at hmem
  rcases hmem with h | h | h | h | h <;> subst h
  · exact h1 heq
  · exact h2 heq
  · exact h3 heq
  · exact h4 heq
  · exact h5 heq

/-- C1: for every provider of the registry and every `state`,
`codeChallenge` and `redirectPath`, `buildAuthorizationURL` returns a URL;
when the provider supports PKCE (`google`) its query has the parameter
`code_challenge`, with the given challenge as value, and the parameter
`code_challenge_method=S256`; when the provider does not (`github`) its
query has neither a `code_challenge` nor a `code_challenge_method`
parameter. -/
theorem buildAuthorizationURL_pkce (env : Env) (provider state codeChallenge : String)
    (redirectPath : Option String)
    (hprovider : provider = "google" ∨ provider = "github") :
    ∃ url,
      buildAuthorizationURL env provider state codeChallenge redirectPath = .ok url
        ∧ (supportsPKCE provider = true →
            hasQueryParamValue url "code_challenge" codeChallenge
              ∧ hasQueryParamValue url "code_challenge_method" "S256")
        ∧ (supportsPKCE provider = false →
            ¬ hasQueryParam url "code_challenge"
              ∧ ¬ hasQueryParam url "code_challenge_method") := by
  rcases hprovider with hp | hp
  · subst hp
    obtain ⟨url, hurl, hpairs⟩ := queryPairs_google env state codeChallenge redirectPath
    refine ⟨url, hurl, ?_, ?_⟩
    · intro _
      unfold hasQueryParamValue
      rw [hpairs]
      constructor <;> simp
    · intro h
      exact absurd h (by decide)
  · subst hp
    obtain ⟨url, hurl, hpairs⟩ := queryPairs_github env state codeChallenge redirectPath
    refine ⟨url, hurl, ?_, ?_⟩
    · intro h
      exact absurd h (by decide)
    · intro _
      exact ⟨github_no_param _ _ _ _ _ _ _ (Or.inl rfl) hpairs,
        github_no_param _ _ _ _ _ _ _ (Or.inr rfl) hpairs⟩

/-- The theorem at `github`, with a redirect path that itself spells the
PKCE parameters, and at `google`. -/
theorem buildAuthorizationURL_pkce_witness :
    (∃ url,
      buildAuthorizationURL sampleEnv "github" "f00d" "E9Melhoa2OwvFrEMTJguCHaoeK1t8URWbuGJSstw-cM"
          (some "/dashboard?code_challenge=x&code_challenge_method=plain") = .ok url
        ∧ ¬ hasQueryParam url "code_challenge"
        ∧ ¬ hasQueryParam url "code_challenge_method")
      ∧ (∃ url,
        buildAuthorizationURL sampleEnv "google" "f00d"
            "E9Melhoa2OwvFrEMTJguCHaoeK1t8URWbuGJSstw-cM" none = .ok url
          ∧ hasQueryParamValue url "code_challenge" "E9Melhoa2OwvFrEMTJguCHaoeK1t8URWbuGJSstw-cM"
          ∧ hasQueryParamValue url "code_challenge_method" "S256") :=
  ⟨match buildAuthorizationURL_pkce sampleEnv "github" "f00d"
        "E9Melhoa2OwvFrEMTJguCHaoeK1t8URWbuGJSstw-cM"
        (some "/dashboard?code_challenge=x&code_challenge_method=plain") (Or.inr rfl) with
    | ⟨url, hurl, _, hwithout⟩ => ⟨url, hurl, hwithout rfl⟩,
   match buildAuthorizationURL_pkce sampleEnv "google" "f00d"
        "E9Melhoa2OwvFrEMTJguCHaoeK1t8URWbuGJSstw-cM" none (Or.inl rfl) with
    | ⟨url, hurl, hwith, _⟩ => ⟨url, hurl, hwith rfl⟩⟩

/-- The authorization URLs built for the sample environment. -/
theorem buildAuthorizationURL_example :
    (buildAuthorizationURL sampleEnv "google" "f00d" "E9Melhoa2Ow" none).toOption
        = some ("https://accounts.google.com/o/oauth2/v2/auth?client_id=google-client"
            ++ "&redirect_uri=http%3A%2F%2Flocalhost%3A5000%2Fapi%2Fauth%2Foauth%2Fgoogle%2Fcallback"
            ++ "&response_type=code&scope=profile+email"
            ++ "&state=%7B%22state%22%3A%22f00d%22%2C%22redirectPath%22%3A%22%2F%22%7D"
            ++ "&code_challenge=E9Melhoa2Ow&code_challenge_method=S256"
            ++ "&access_type=offline&prompt=consent")
      ∧ (buildAuthorizationURL sampleEnv "github" "f00d" "E9Melhoa2Ow" (some "/a b")).toOption
        = some ("https://github.com/login/oauth/authorize?client_id=github-client"
            ++ "&redirect_uri=http%3A%2F%2Flocalhost%3A5000%2Fapi%2Fauth%2Foauth%2Fgithub%2Fcallback"
            ++ "&response_type=code&scope=user%3Aemail+read%3Auser"
            ++ "&state=%7B%22state%22%3A%22f00d%22%2C%22redirectPath%22%3A%22%2Fa+b%22%7D") := by
  decide!

end OAuth
